import Mathlib

/-!
# grpc-replay: a shallow embedding of `grpc-replay/grpc-replay.go`

The replay tool reads a dump of recorded RPCs, obtains a connection for each
record, opens a stream and replays the recorded messages.  Every interaction
with the outside (the connection pool, the gRPC stream, standard output) is
modelled by explicit state passing over a `World`, and every such interaction
is logged in a trace of `Event`s, in program order.
-/

namespace GrpcReplay

/-! ## Data model -/

/-- A raw payload: a sequence of bytes (`[]byte`). -/
abbrev Bytes := List Nat

/-- The type `metadata.MD` (`map[string][]string`), as an association list
whose first binding of a key is the map's entry for it. -/
abbrev MD := List (String × List String)

/-- The call `md.Get(":authority")`, the one use the program makes of
`metadata.MD.Get`: the method lower-cases its key, which leaves `:authority`
as it is, and returns the map's entry under it, the empty slice when the key
is absent. -/
def MD.GetAuthority (md : MD) : List String :=
  match List.lookup ":authority" md with
  | some vs => vs
  | none => []

/-- Modelled from the spec: the declaration of `internal.MessageOrigin` is not
part of the sources at hand.  A message is tagged client-sent or server-sent,
and any other tag is kept with its text. -/
inductive MessageOrigin where
  | ClientMessage
  | ServerMessage
  | other (tag : String)
  deriving DecidableEq, Repr

/-- Modelled from the spec: the declaration of `internal.Message` is not part
of the sources at hand.  One recorded message: an origin tag and the raw
payload. -/
structure Message where
  MessageOrigin : MessageOrigin
  RawMessage : Bytes
  deriving DecidableEq, Repr

/-- Modelled from the spec: the declaration of `internal.RPC` is not part of
the sources at hand.  One recorded call: its metadata, its canonical stream
identifier (the value of `rpc.StreamName()`) and its ordered messages. -/
structure RPC where
  Metadata : MD
  StreamName : String
  Messages : List Message
  deriving DecidableEq, Repr

/-- The options `getConnection` can hand to the pool. -/
inductive DialOption where
  /-- The option `grpc.WithDefaultCallOptions(grpc.ForceCodec(grpc_proxy.NoopCodec{}))`. -/
  | forceNoopCodec
  /-- The option `grpc.WithBlock()`. -/
  | withBlock
  /-- The option `grpc.WithTransportCredentials(credentials.NewTLS(nil))`. -/
  | withTransportCredentialsTLS
  /-- The option `grpc.WithInsecure()`. -/
  | withInsecure
  deriving DecidableEq, Repr

/-- A transport-security option is one of the two credentials options. -/
def DialOption.isTransportSecurity : DialOption → Bool
  | .withTransportCredentialsTLS => true
  | .withInsecure => true
  | _ => false

/-- A handle on a `*grpc.ClientConn`. -/
abbrev ClientConn := Nat

/-- A handle on a `grpc.ClientStream`. -/
abbrev ClientStream := Nat

/-- One observable action of the program, logged in program order. -/
inductive Event where
  /-- A call of `dumpDecoder.Decode`. -/
  | decode
  /-- A call of `cachedConns.GetClientConn` with this destination and options. -/
  | getClientConn (destination : String) (options : List DialOption)
  /-- A call of `conn.NewStream` with this outgoing metadata and stream name. -/
  | newStream (conn : ClientConn) (md : MD) (streamName : String)
  /-- A call of `str.SendMsg` with this payload. -/
  | sendMsg (str : ClientStream) (payload : Bytes)
  /-- A call of `str.RecvMsg`. -/
  | recvMsg (str : ClientStream)
  /-- Text written to standard output. -/
  | stdout (text : String)
  /-- Text written to standard error. -/
  | stderr (text : String)
  /-- A call of `flag.Usage`. -/
  | usage
  deriving DecidableEq, Repr

/-- The outside world of one run, over a state `σ`: the connection pool and
the gRPC streams.  An error is represented by its `Error()` text. -/
structure World (σ : Type) where
  /-- The method `cachedConns.GetClientConn(dialCtx, destination, options...)`. -/
  GetClientConn : σ → String → List DialOption → σ × Except String ClientConn
  /-- The method `conn.NewStream(ctx, desc, streamName)`; `ctx` carries the metadata. -/
  NewStream : σ → ClientConn → MD → String → σ × Except String ClientStream
  /-- The method `str.SendMsg(payload)`; `none` is a nil error. -/
  SendMsg : σ → ClientStream → Bytes → σ × Option String
  /-- The method `str.RecvMsg(&resp)`; on success the bytes received. -/
  RecvMsg : σ → ClientStream → σ × Except String Bytes

/-- The command line and the one imported predicate the program consults. -/
structure Config where
  /-- The flag `*destinationOverride`; the empty string when not given. -/
  destinationOverride : String
  /-- The predicate `tls.IsTLSRPC`, whose source is not at hand. -/
  IsTLSRPC : MD → Bool

/-- What one call of `dumpDecoder.Decode` yields before end-of-input. -/
inductive DecodeResult where
  | record (rpc : RPC)
  | error (err : String)
  deriving DecidableEq, Repr

/-- The dump as the decoder sees it: the successive results of `Decode`; past
the end of the list `Decode` returns `io.EOF`. -/
abbrev Dump := List DecodeResult

/-! ## `getConnection` -/

/-- The text of the error `getConnection` builds when no destination is found. -/
def resolutionError : String :=
  "no destination override specified and could not auto-detect from dump"

/-- The first half of `getConnection`: the destination, or `none` when the
override is empty and the metadata has no `:authority` value. -/
def resolveDestination (cfg : Config) (md : MD) : Option String :=
  if cfg.destinationOverride = "" then
    match md.GetAuthority with
    | [] => none
    | a :: _ => some a
  else some cfg.destinationOverride

/-- The dial options `getConnection` assembles for the metadata `md`. -/
def dialOptions (cfg : Config) (md : MD) : List DialOption :=
  [DialOption.forceNoopCodec, DialOption.withBlock] ++
    (if cfg.IsTLSRPC md then [DialOption.withTransportCredentialsTLS]
     else [DialOption.withInsecure])

/-- The function `getConnection`, over any implementation of the pool's
`GetClientConn`. -/
def getConnection {σ : Type}
    (GetClientConn : σ → String → List DialOption → σ × Except String ClientConn)
    (cfg : Config) (s : σ) (md : MD) : σ × List Event × Except String ClientConn :=
  match resolveDestination cfg md with
  | none => (s, [], .error resolutionError)
  | some destination =>
    let options := dialOptions cfg md
    let r := GetClientConn s destination options
    (r.1, [Event.getClientConn destination options], r.2)

/-! ## `run` -/

/-- How the replay of one record's messages ends. -/
inductive Outcome where
  /-- The message loop ran to its end. -/
  | completed
  /-- A received message differed: `continue RPC`. -/
  | mismatched
  /-- A `return` of this error from `run`. -/
  | failed (err : String)
  deriving DecidableEq, Repr

/-- The inner loop of `run`: `for _, message := range rpc.Messages`. -/
def replayMessages {σ : Type} (w : World σ) (str : ClientStream) :
    σ → List Message → σ × List Event × Outcome
  | s, [] => (s, [], .completed)
  | s, m :: rest =>
    match m.MessageOrigin with
    | .ClientMessage =>
      match w.SendMsg s str m.RawMessage with
      | (s1, some err) =>
        (s1, [Event.sendMsg str m.RawMessage], .failed ("failed to send message: " ++ err))
      | (s1, none) =>
        let r := replayMessages w str s1 rest
        (r.1, Event.sendMsg str m.RawMessage :: r.2.1, r.2.2)
    | .ServerMessage =>
      match w.RecvMsg s str with
      | (s1, .error err) =>
        (s1, [Event.recvMsg str], .failed ("failed to recv message: " ++ err))
      | (s1, .ok resp) =>
        if resp ≠ m.RawMessage then
          (s1, [Event.recvMsg str, Event.stdout "Err mismatch\n"], .mismatched)
        else
          let r := replayMessages w str s1 rest
          (r.1, Event.recvMsg str :: r.2.1, r.2.2)
    | .other tag => (s, [], .failed ("invalid message type: " ++ tag))

/-- The body of the outer loop of `run` for one decoded record. -/
def replayRPC {σ : Type} (w : World σ) (cfg : Config) (s : σ) (rpc : RPC) :
    σ × List Event × Outcome :=
  match getConnection w.GetClientConn cfg s rpc.Metadata with
  | (s1, t1, .error err) =>
    (s1, t1, .failed ("failed to connect to destination (" ++ cfg.destinationOverride
      ++ "): " ++ err))
  | (s1, t1, .ok conn) =>
    match w.NewStream s1 conn rpc.Metadata rpc.StreamName with
    | (s2, .error err) =>
      (s2, t1 ++ [Event.newStream conn rpc.Metadata rpc.StreamName],
        .failed ("failed to make new stream: " ++ err))
    | (s2, .ok str) =>
      let r := replayMessages w str s2 rpc.Messages
      let head := t1 ++ [Event.newStream conn rpc.Metadata rpc.StreamName,
        Event.stdout (rpc.StreamName ++ "...")]
      match r.2.2 with
      | .completed => (r.1, head ++ r.2.1 ++ [Event.stdout "OK\n"], .completed)
      | o => (r.1, head ++ r.2.1, o)

/-- The final state, the trace and the returned error (`none` for nil) of a
part of the program. -/
structure RunResult (σ : Type) where
  state : σ
  trace : List Event
  err : Option String

/-- The outer loop of `run`, labelled `RPC`, over what is left of the dump. -/
def runLoop {σ : Type} (w : World σ) (cfg : Config) : σ → Dump → RunResult σ
  | s, [] => ⟨s, [Event.decode], none⟩
  | s, .error err :: _ => ⟨s, [Event.decode], some ("failed to decode dump: " ++ err)⟩
  | s, .record rpc :: rest =>
    match replayRPC w cfg s rpc with
    | (s1, t1, .failed err) => ⟨s1, Event.decode :: t1, some err⟩
    | (s1, t1, _) =>
      let r := runLoop w cfg s1 rest
      ⟨r.state, Event.decode :: t1 ++ r.trace, r.err⟩

/-- The function `run`; `file` is the result of `os.Open(*dumpPath)`, the dump
it gives access to or the error. -/
def run {σ : Type} (w : World σ) (cfg : Config) (s : σ) (file : Except String Dump) :
    RunResult σ :=
  match file with
  | .error err => ⟨s, [], some err⟩
  | .ok dump => runLoop w cfg s dump

/-- The function `main` after `flag.Parse()`: the trace and the exit status. -/
def main {σ : Type} (w : World σ) (cfg : Config) (s : σ) (file : Except String Dump) :
    List Event × Nat :=
  let r := run w cfg s file
  match r.err with
  | some err => (r.trace ++ [Event.stderr (err ++ "\n"), Event.usage], 1)
  | none => (r.trace, 0)

/-- The events with which an iteration whose stream opened begins, after the
pool call: the stream is opened and the stream name is printed. -/
def streamHead (conn : ClientConn) (rpc : RPC) : List Event :=
  [Event.newStream conn rpc.Metadata rpc.StreamName, Event.stdout (rpc.StreamName ++ "...")]

/-! ## The specification's reading of a faithful exchange -/

/-- The stream operation the recording prescribes for a message: a send of the
recorded payload for a client message, a receive for a server message, and
none for any other tag. -/
def streamOp (str : ClientStream) (m : Message) : List Event :=
  match m.MessageOrigin with
  | .ClientMessage => [Event.sendMsg str m.RawMessage]
  | .ServerMessage => [Event.recvMsg str]
  | .other _ => []

/-- The payload carried by a send event. -/
def sentPayload : Event → Option Bytes
  | .sendMsg _ payload => some payload
  | _ => none

/-- The payload of a client-origin message. -/
def clientPayload (m : Message) : Option Bytes :=
  match m.MessageOrigin with
  | .ClientMessage => some m.RawMessage
  | _ => none

/-- The texts written to standard output, in order. -/
def stdoutOf : List Event → List String
  | [] => []
  | .stdout text :: rest => text :: stdoutOf rest
  | _ :: rest => stdoutOf rest

/-- The stream operations the recording prescribes for a message sequence, in
recorded order. -/
def recordedOps (str : ClientStream) : List Message → List Event
  | [] => []
  | m :: rest => streamOp str m ++ recordedOps str rest

/-- In the words of the specification: every message of the sequence is
processed with no error, and every server-origin message is received with
exactly the recorded bytes.  The world is stepped by the operations
themselves. -/
def ProcessedAndEqual {σ : Type} (w : World σ) (str : ClientStream) :
    σ → List Message → Prop
  | _, [] => True
  | s, m :: rest =>
    match m.MessageOrigin with
    | .ClientMessage =>
      (w.SendMsg s str m.RawMessage).2 = none ∧
        ProcessedAndEqual w str (w.SendMsg s str m.RawMessage).1 rest
    | .ServerMessage =>
      (w.RecvMsg s str).2 = .ok m.RawMessage ∧
        ProcessedAndEqual w str (w.RecvMsg s str).1 rest
    | .other _ => False

/-- In the words of the specification: every record up to end-of-input ended
in OK or in a mismatch, each record starting from the state its predecessor
left. -/
def EndsOKOrMismatch {σ : Type} (w : World σ) (cfg : Config) : σ → Dump → Prop
  | _, [] => True
  | _, .error _ :: _ => False
  | s, .record rpc :: rest =>
    ((replayRPC w cfg s rpc).2.2 = .completed ∨ (replayRPC w cfg s rpc).2.2 = .mismatched) ∧
      EndsOKOrMismatch w cfg (replayRPC w cfg s rpc).1 rest

/-! ## The connection pool -/

/-- Modelled from the spec: the pool `internal.ConnPool` behind `cachedConns`
is not part of the sources at hand.  The state of the pool and of the network
it dials into: the connections registered per destination, the network state,
and the log of the dials made so far. -/
structure PoolState (τ : Type) where
  conns : List (String × ClientConn)
  net : τ
  dials : List (String × List DialOption)

/-- Modelled from the spec: the method `GetClientConn` of `internal.ConnPool`
is not part of the sources at hand.  On a pool hit for the destination the
existing connection is returned without dialing; otherwise the destination is
dialed with the given options and, on success, the connection is registered
under the destination. -/
def ConnPool.GetClientConn {τ : Type}
    (dial : τ → String → List DialOption → τ × Except String ClientConn)
    (p : PoolState τ) (destination : String) (options : List DialOption) :
    PoolState τ × Except String ClientConn :=
  match List.lookup destination p.conns with
  | some conn => (p, .ok conn)
  | none =>
    match dial p.net destination options with
    | (n1, .error err) =>
      (⟨p.conns, n1, p.dials ++ [(destination, options)]⟩, .error err)
    | (n1, .ok conn) =>
      (⟨(destination, conn) :: p.conns, n1, p.dials ++ [(destination, options)]⟩, .ok conn)

/-- A world whose pool is `ConnPool.GetClientConn` over a dialer, and whose
streams act on the network state only. -/
def poolWorld {τ : Type}
    (dial : τ → String → List DialOption → τ × Except String ClientConn)
    (base : World τ) : World (PoolState τ) where
  GetClientConn := ConnPool.GetClientConn dial
  NewStream := fun p conn md name =>
    (⟨p.conns, (base.NewStream p.net conn md name).1, p.dials⟩,
      (base.NewStream p.net conn md name).2)
  SendMsg := fun p str payload =>
    (⟨p.conns, (base.SendMsg p.net str payload).1, p.dials⟩,
      (base.SendMsg p.net str payload).2)
  RecvMsg := fun p str =>
    (⟨p.conns, (base.RecvMsg p.net str).1, p.dials⟩, (base.RecvMsg p.net str).2)

/-- One operation of the world, from one state to the next. -/
inductive WorldStep {σ : Type} (w : World σ) : σ → σ → Prop where
  | getClientConn (s : σ) (d : String) (o : List DialOption) :
      WorldStep w s (w.GetClientConn s d o).1
  | newStream (s : σ) (c : ClientConn) (md : MD) (n : String) :
      WorldStep w s (w.NewStream s c md n).1
  | sendMsg (s : σ) (str : ClientStream) (b : Bytes) :
      WorldStep w s (w.SendMsg s str b).1
  | recvMsg (s : σ) (str : ClientStream) :
      WorldStep w s (w.RecvMsg s str).1

/-- The states a run can be in later on: any number of world operations on. -/
def Later {σ : Type} (w : World σ) : σ → σ → Prop :=
  Relation.ReflTransGen (WorldStep w)

/-! ## Concrete worlds and records used as test inputs -/

/-- A server that answers each receive with the next of a fixed list of
payloads; connecting and opening a stream succeed. -/
def scriptedWorld : World (List Bytes) where
  GetClientConn := fun s _ _ => (s, .ok 7)
  NewStream := fun s _ _ _ => (s, .ok 1)
  SendMsg := fun s _ _ => (s, none)
  RecvMsg := fun s _ =>
    match s with
    | [] => (s, .error "EOF")
    | b :: rest => (rest, .ok b)

/-- A world in which no stream can be opened. -/
def noStreamWorld : World Unit where
  GetClientConn := fun s _ _ => (s, .ok 7)
  NewStream := fun s _ _ _ => (s, .error "unavailable")
  SendMsg := fun s _ _ => (s, none)
  RecvMsg := fun s _ => (s, .ok [])

/-- No override, and no metadata treated as TLS. -/
def plainConfig : Config := ⟨"", fun _ => false⟩

/-- The bytes of the text `req1`. -/
def req1 : Bytes := [114, 101, 113, 49]

/-- The bytes of the text `resp1`. -/
def resp1 : Bytes := [114, 101, 115, 112, 49]

/-- The bytes of the text `resp2`. -/
def resp2 : Bytes := [114, 101, 115, 112, 50]

/-- The record of the end-to-end scenario of the specification. -/
def exampleRPC : RPC :=
  ⟨[(":authority", ["localhost:50051"])], "pkg.Svc/Method",
    [⟨.ClientMessage, req1⟩, ⟨.ServerMessage, resp1⟩]⟩

/-- A record whose second message carries a tag that is neither client nor
server. -/
def badTagRPC : RPC :=
  ⟨[(":authority", ["localhost:50051"])], "pkg.Svc/Method",
    [⟨.ServerMessage, resp1⟩, ⟨.other "bogus", []⟩]⟩

/-- A record with a message of an unknown tag between two client messages. -/
def tagBetweenRPC : RPC :=
  ⟨[(":authority", ["localhost:50051"])], "pkg.Svc/Method",
    [⟨.ClientMessage, req1⟩, ⟨.other "bogus", []⟩, ⟨.ClientMessage, resp1⟩]⟩

/-- A record with no messages. -/
def emptyRPC : RPC :=
  ⟨[(":authority", ["localhost:50051"])], "pkg.Svc/Method", []⟩

/-- A record whose metadata names no authority. -/
def noAuthorityRPC : RPC :=
  ⟨[], "pkg.Svc/Method", [⟨.ClientMessage, req1⟩, ⟨.ServerMessage, resp1⟩]⟩

/-- The TLS predicate used in the test of connection reuse: the metadata
carries the scheme `https`. -/
def httpsConfig : Config := ⟨"", fun md => List.lookup ":scheme" md == some ["https"]⟩

/-- A dialer that hands out the number of connections made so far. -/
def countingDial : Nat → String → List DialOption → Nat × Except String ClientConn :=
  fun n _ _ => (n + 1, .ok n)

/-- Streams that always open and never answer, over the counting dialer. -/
def silentStreams : World Nat where
  GetClientConn := fun n _ _ => (n, .error "unused")
  NewStream := fun n _ _ _ => (n, .ok 1)
  SendMsg := fun n _ _ => (n, none)
  RecvMsg := fun n _ => (n, .error "EOF")

/-- A record for another destination, with the scheme `https`. -/
def otherRPC : RPC :=
  ⟨[(":authority", ["other:443"]), (":scheme", ["https"])], "pkg.Svc/Other",
    [⟨.ClientMessage, req1⟩]⟩

/-! ## Lemmas on the loops -/

theorem replayMessages_send_ok {σ : Type} (w : World σ) (str : ClientStream) (s s1 : σ)
    (m : Message) (rest : List Message) (hm : m.MessageOrigin = .ClientMessage)
    (hs : w.SendMsg s str m.RawMessage = (s1, none)) :
    replayMessages w str s (m :: rest) =
      ((replayMessages w str s1 rest).1,
        Event.sendMsg str m.RawMessage :: (replayMessages w str s1 rest).2.1,
        (replayMessages w str s1 rest).2.2) := by
  rw [replayMessages]
  simp only [hm, hs]

theorem replayMessages_send_err {σ : Type} (w : World σ) (str : ClientStream) (s s1 : σ)
    (m : Message) (rest : List Message) (err : String)
    (hm : m.MessageOrigin = .ClientMessage)
    (hs : w.SendMsg s str m.RawMessage = (s1, some err)) :
    replayMessages w str s (m :: rest) =
      (s1, [Event.sendMsg str m.RawMessage],
        .failed ("failed to send message: " ++ err)) := by
  rw [replayMessages]
  simp only [hm, hs]

theorem replayMessages_recv_err {σ : Type} (w : World σ) (str : ClientStream) (s s1 : σ)
    (m : Message) (rest : List Message) (err : String)
    (hm : m.MessageOrigin = .ServerMessage)
    (hr : w.RecvMsg s str = (s1, .error err)) :
    replayMessages w str s (m :: rest) =
      (s1, [Event.recvMsg str], .failed ("failed to recv message: " ++ err)) := by
  rw [replayMessages]
  simp only [hm, hr]

theorem replayMessages_recv_ne {σ : Type} (w : World σ) (str : ClientStream) (s s1 : σ)
    (m : Message) (rest : List Message) (resp : Bytes)
    (hm : m.MessageOrigin = .ServerMessage)
    (hr : w.RecvMsg s str = (s1, .ok resp)) (hne : resp ≠ m.RawMessage) :
    replayMessages w str s (m :: rest) =
      (s1, [Event.recvMsg str, Event.stdout "Err mismatch\n"], .mismatched) := by
  rw [replayMessages]
  simp only [hm, hr, hne, ne_eq, not_false_eq_true, if_true]

theorem replayMessages_recv_eq {σ : Type} (w : World σ) (str : ClientStream) (s s1 : σ)
    (m : Message) (rest : List Message)
    (hm : m.MessageOrigin = .ServerMessage)
    (hr : w.RecvMsg s str = (s1, .ok m.RawMessage)) :
    replayMessages w str s (m :: rest) =
      ((replayMessages w str s1 rest).1,
        Event.recvMsg str :: (replayMessages w str s1 rest).2.1,
        (replayMessages w str s1 rest).2.2) := by
  rw [replayMessages]
  simp only [hm, hr, ne_eq, not_true_eq_false, if_false]

theorem replayMessages_other {σ : Type} (w : World σ) (str : ClientStream) (s : σ)
    (m : Message) (rest : List Message) (tag : String)
    (hm : m.MessageOrigin = .other tag) :
    replayMessages w str s (m :: rest) =
      (s, [], .failed ("invalid message type: " ++ tag)) := by
  rw [replayMessages]
  simp only [hm]

theorem replayMessages_append {σ : Type} (w : World σ) (str : ClientStream)
    (before after : List Message) (s s1 : σ) (tb : List Event)
    (h : replayMessages w str s before = (s1, tb, .completed)) :
    replayMessages w str s (before ++ after) =
      ((replayMessages w str s1 after).1, tb ++ (replayMessages w str s1 after).2.1,
        (replayMessages w str s1 after).2.2) := by
  induction before generalizing s tb with
  | nil =>
    simp only [replayMessages, Prod.mk.injEq] at h
    obtain ⟨rfl, rfl, -⟩ := h
    simp
  | cons m ms ih =>
    simp only [List.cons_append]
    cases hm : m.MessageOrigin with
    | ClientMessage =>
      rcases hs : w.SendMsg s str m.RawMessage with ⟨s2, _ | e⟩
      · rw [replayMessages_send_ok w str s s2 m _ hm hs] at h ⊢
        simp only [Prod.mk.injEq] at h
        obtain ⟨h1, h2, h3⟩ := h
        rw [ih s2 (replayMessages w str s2 ms).2.1 (by rw [← h1, ← h3])]
        subst h2
        simp
      · rw [replayMessages_send_err w str s s2 m _ e hm hs] at h
        simp at h
    | ServerMessage =>
      rcases hr : w.RecvMsg s str with ⟨s2, e | resp⟩
      · rw [replayMessages_recv_err w str s s2 m _ e hm hr] at h
        simp at h
      · by_cases hne : resp = m.RawMessage
        · subst hne
          rw [replayMessages_recv_eq w str s s2 m _ hm hr] at h ⊢
          simp only [Prod.mk.injEq] at h
          obtain ⟨h1, h2, h3⟩ := h
          rw [ih s2 (replayMessages w str s2 ms).2.1 (by rw [← h1, ← h3])]
          subst h2
          simp
        · rw [replayMessages_recv_ne w str s s2 m _ resp hm hr hne] at h
          simp at h
    | other tag =>
      rw [replayMessages_other w str s m _ tag hm] at h
      simp at h

theorem replayRPC_conn_err {σ : Type} (w : World σ) (cfg : Config) (s s1 : σ) (rpc : RPC)
    (tc : List Event) (err : String)
    (hconn : getConnection w.GetClientConn cfg s rpc.Metadata = (s1, tc, .error err)) :
    replayRPC w cfg s rpc =
      (s1, tc, .failed ("failed to connect to destination (" ++ cfg.destinationOverride
        ++ "): " ++ err)) := by
  simp only [replayRPC, hconn]

theorem replayRPC_stream_err {σ : Type} (w : World σ) (cfg : Config) (s s1 s2 : σ)
    (rpc : RPC) (tc : List Event) (conn : ClientConn) (err : String)
    (hconn : getConnection w.GetClientConn cfg s rpc.Metadata = (s1, tc, .ok conn))
    (hstr : w.NewStream s1 conn rpc.Metadata rpc.StreamName = (s2, .error err)) :
    replayRPC w cfg s rpc =
      (s2, tc ++ [Event.newStream conn rpc.Metadata rpc.StreamName],
        .failed ("failed to make new stream: " ++ err)) := by
  simp only [replayRPC, hconn, hstr]

theorem replayRPC_completed {σ : Type} (w : World σ) (cfg : Config) (s s1 s2 s3 : σ)
    (rpc : RPC) (tc tm : List Event) (conn : ClientConn) (str : ClientStream)
    (hconn : getConnection w.GetClientConn cfg s rpc.Metadata = (s1, tc, .ok conn))
    (hstr : w.NewStream s1 conn rpc.Metadata rpc.StreamName = (s2, .ok str))
    (hmsg : replayMessages w str s2 rpc.Messages = (s3, tm, .completed)) :
    replayRPC w cfg s rpc =
      (s3, tc ++ streamHead conn rpc ++ tm ++ [Event.stdout "OK\n"], .completed) := by
  simp only [replayRPC, hconn, hstr, hmsg, streamHead]

theorem replayRPC_mismatched {σ : Type} (w : World σ) (cfg : Config) (s s1 s2 s3 : σ)
    (rpc : RPC) (tc tm : List Event) (conn : ClientConn) (str : ClientStream)
    (hconn : getConnection w.GetClientConn cfg s rpc.Metadata = (s1, tc, .ok conn))
    (hstr : w.NewStream s1 conn rpc.Metadata rpc.StreamName = (s2, .ok str))
    (hmsg : replayMessages w str s2 rpc.Messages = (s3, tm, .mismatched)) :
    replayRPC w cfg s rpc = (s3, tc ++ streamHead conn rpc ++ tm, .mismatched) := by
  simp only [replayRPC, hconn, hstr, hmsg, streamHead]

theorem replayRPC_failed {σ : Type} (w : World σ) (cfg : Config) (s s1 s2 s3 : σ)
    (rpc : RPC) (tc tm : List Event) (conn : ClientConn) (str : ClientStream) (err : String)
    (hconn : getConnection w.GetClientConn cfg s rpc.Metadata = (s1, tc, .ok conn))
    (hstr : w.NewStream s1 conn rpc.Metadata rpc.StreamName = (s2, .ok str))
    (hmsg : replayMessages w str s2 rpc.Messages = (s3, tm, .failed err)) :
    replayRPC w cfg s rpc = (s3, tc ++ streamHead conn rpc ++ tm, .failed err) := by
  simp only [replayRPC, hconn, hstr, hmsg, streamHead]

theorem runLoop_failed {σ : Type} (w : World σ) (cfg : Config) (s s1 : σ) (rpc : RPC)
    (rest : Dump) (t1 : List Event) (err : String)
    (h : replayRPC w cfg s rpc = (s1, t1, .failed err)) :
    runLoop w cfg s (.record rpc :: rest) = ⟨s1, Event.decode :: t1, some err⟩ := by
  rw [runLoop]
  simp only [h]

theorem runLoop_continue {σ : Type} (w : World σ) (cfg : Config) (s s1 : σ) (rpc : RPC)
    (rest : Dump) (t1 : List Event) (o : Outcome)
    (h : replayRPC w cfg s rpc = (s1, t1, o)) (ho : o = .completed ∨ o = .mismatched) :
    runLoop w cfg s (.record rpc :: rest) =
      ⟨(runLoop w cfg s1 rest).state, Event.decode :: t1 ++ (runLoop w cfg s1 rest).trace,
        (runLoop w cfg s1 rest).err⟩ := by
  rw [runLoop]
  rcases ho with rfl | rfl <;> simp only [h]

theorem runLoop_trace_ne_nil {σ : Type} (w : World σ) (cfg : Config) (s : σ) (dump : Dump) :
    (runLoop w cfg s dump).trace ≠ [] := by
  cases dump with
  | nil => simp [runLoop]
  | cons e es =>
    cases e with
    | error err => simp [runLoop]
    | record rpc =>
      rcases hr : replayRPC w cfg s rpc with ⟨s1, t1, o⟩
      cases o with
      | failed err => rw [runLoop_failed w cfg s s1 rpc es t1 err hr]; simp
      | completed => rw [runLoop_continue w cfg s s1 rpc _ t1 _ hr (Or.inl rfl)]; simp
      | mismatched => rw [runLoop_continue w cfg s s1 rpc _ t1 _ hr (Or.inr rfl)]; simp

theorem runLoop_append_dropLast {σ : Type} (w : World σ) (cfg : Config) (earlier rest : Dump)
    (s0 : σ) (h : (runLoop w cfg s0 earlier).err = none) :
    runLoop w cfg s0 (earlier ++ rest) =
      ⟨(runLoop w cfg (runLoop w cfg s0 earlier).state rest).state,
        (runLoop w cfg s0 earlier).trace.dropLast ++
          (runLoop w cfg (runLoop w cfg s0 earlier).state rest).trace,
        (runLoop w cfg (runLoop w cfg s0 earlier).state rest).err⟩ := by
  induction earlier generalizing s0 with
  | nil => simp [runLoop]
  | cons e es ih =>
    cases e with
    | error err => simp [runLoop] at h
    | record rpc =>
      rcases hr : replayRPC w cfg s0 rpc with ⟨s1, t1, o⟩
      have key : ∀ o, (o = .completed ∨ o = .mismatched) → replayRPC w cfg s0 rpc = (s1, t1, o) →
          (runLoop w cfg s0 (.record rpc :: es)).err = none →
          runLoop w cfg s0 (.record rpc :: es ++ rest) =
          ⟨(runLoop w cfg (runLoop w cfg s0 (.record rpc :: es)).state rest).state,
            (runLoop w cfg s0 (.record rpc :: es)).trace.dropLast ++
              (runLoop w cfg (runLoop w cfg s0 (.record rpc :: es)).state rest).trace,
            (runLoop w cfg (runLoop w cfg s0 (.record rpc :: es)).state rest).err⟩ := by
        intro o ho hr h
        simp only [List.cons_append]
        rw [runLoop_continue w cfg s0 s1 rpc _ t1 _ hr ho] at h ⊢
        rw [runLoop_continue w cfg s0 s1 rpc es t1 _ hr ho]
        simp only at h ⊢
        rw [ih s1 h]
        have hne := runLoop_trace_ne_nil w cfg s1 es
        rw [show Event.decode :: t1 ++ (runLoop w cfg s1 es).trace
            = (Event.decode :: t1) ++ (runLoop w cfg s1 es).trace from rfl,
          List.dropLast_append_of_ne_nil _ hne]
        simp
      cases o with
      | failed err =>
        rw [runLoop_failed w cfg s0 s1 rpc es t1 err hr] at h
        simp at h
      | completed => exact key _ (Or.inl rfl) hr h
      | mismatched => exact key _ (Or.inr rfl) hr h

theorem runLoop_append {σ : Type} (w : World σ) (cfg : Config) (earlier rest : Dump)
    (s0 s : σ) (tp : List Event)
    (h : runLoop w cfg s0 earlier = ⟨s, tp ++ [Event.decode], none⟩) :
    runLoop w cfg s0 (earlier ++ rest) =
      ⟨(runLoop w cfg s rest).state, tp ++ (runLoop w cfg s rest).trace,
        (runLoop w cfg s rest).err⟩ := by
  rw [runLoop_append_dropLast w cfg earlier rest s0 (by rw [h])]
  simp [h]

theorem run_failed_at {σ : Type} (w : World σ) (cfg : Config) (s0 s s1 : σ)
    (earlier rest : Dump) (tp t1 : List Event) (rpc : RPC) (err : String)
    (hpre : runLoop w cfg s0 earlier = ⟨s, tp ++ [Event.decode], none⟩)
    (h : replayRPC w cfg s rpc = (s1, t1, .failed err)) :
    run w cfg s0 (.ok (earlier ++ .record rpc :: rest)) =
      ⟨s1, tp ++ [Event.decode] ++ t1, some err⟩ := by
  simp only [run]
  rw [runLoop_append w cfg earlier _ s0 s tp hpre, runLoop_failed w cfg s s1 rpc rest t1 err h]
  simp

theorem runLoop_nil_iff {σ : Type} (w : World σ) (cfg : Config) (s : σ) (dump : Dump) :
    (runLoop w cfg s dump).err = none ↔ EndsOKOrMismatch w cfg s dump := by
  induction dump generalizing s with
  | nil => simp [runLoop, EndsOKOrMismatch]
  | cons e es ih =>
    cases e with
    | error err => simp [runLoop, EndsOKOrMismatch]
    | record rpc =>
      rcases hr : replayRPC w cfg s rpc with ⟨s1, t1, o⟩
      cases o with
      | failed err =>
        rw [runLoop_failed w cfg s s1 rpc es t1 err hr]
        simp [EndsOKOrMismatch, hr]
      | completed =>
        rw [runLoop_continue w cfg s s1 rpc _ t1 _ hr (Or.inl rfl)]
        simp [EndsOKOrMismatch, hr, ih]
      | mismatched =>
        rw [runLoop_continue w cfg s s1 rpc _ t1 _ hr (Or.inr rfl)]
        simp [EndsOKOrMismatch, hr, ih]

theorem getConnection_unresolved {σ : Type}
    (G : σ → String → List DialOption → σ × Except String ClientConn)
    (cfg : Config) (s : σ) (md : MD) (h : resolveDestination cfg md = none) :
    getConnection G cfg s md = (s, [], .error resolutionError) := by
  simp only [getConnection, h]

theorem getConnection_resolved {σ : Type}
    (G : σ → String → List DialOption → σ × Except String ClientConn)
    (cfg : Config) (s : σ) (md : MD) (d : String) (h : resolveDestination cfg md = some d) :
    getConnection G cfg s md =
      ((G s d (dialOptions cfg md)).1, [Event.getClientConn d (dialOptions cfg md)],
        (G s d (dialOptions cfg md)).2) := by
  simp only [getConnection, h]

theorem replayMessages_of_processed {σ : Type} (w : World σ) (str : ClientStream) (s : σ)
    (msgs : List Message) (h : ProcessedAndEqual w str s msgs) :
    (replayMessages w str s msgs).2.1 = recordedOps str msgs ∧
      (replayMessages w str s msgs).2.2 = .completed := by
  induction msgs generalizing s with
  | nil => simp [replayMessages, recordedOps]
  | cons m ms ih =>
    cases hm : m.MessageOrigin with
    | ClientMessage =>
      simp only [ProcessedAndEqual, hm] at h
      rw [replayMessages_send_ok w str s _ m ms hm (Prod.ext rfl h.1)]
      simp [recordedOps, streamOp, hm, ih _ h.2]
    | ServerMessage =>
      simp only [ProcessedAndEqual, hm] at h
      rw [replayMessages_recv_eq w str s _ m ms hm (Prod.ext rfl h.1)]
      simp [recordedOps, streamOp, hm, ih _ h.2]
    | other tag => simp [ProcessedAndEqual, hm] at h

theorem processed_of_completed {σ : Type} (w : World σ) (str : ClientStream) (s : σ)
    (msgs : List Message) (h : (replayMessages w str s msgs).2.2 = .completed) :
    ProcessedAndEqual w str s msgs := by
  induction msgs generalizing s with
  | nil => simp [ProcessedAndEqual]
  | cons m ms ih =>
    cases hm : m.MessageOrigin with
    | ClientMessage =>
      rcases hs : w.SendMsg s str m.RawMessage with ⟨s2, _ | e⟩
      · rw [replayMessages_send_ok w str s s2 m _ hm hs] at h
        simp only [ProcessedAndEqual, hm, hs]
        exact ⟨trivial, ih s2 h⟩
      · rw [replayMessages_send_err w str s s2 m _ e hm hs] at h
        simp at h
    | ServerMessage =>
      rcases hr : w.RecvMsg s str with ⟨s2, e | resp⟩
      · rw [replayMessages_recv_err w str s s2 m _ e hm hr] at h
        simp at h
      · by_cases hne : resp = m.RawMessage
        · subst hne
          rw [replayMessages_recv_eq w str s s2 m _ hm hr] at h
          simp only [ProcessedAndEqual, hm, hr]
          exact ⟨trivial, ih s2 h⟩
        · rw [replayMessages_recv_ne w str s s2 m _ resp hm hr hne] at h
          simp at h
    | other tag =>
      rw [replayMessages_other w str s m _ tag hm] at h
      simp at h

theorem recordedOps_length_of_processed {σ : Type} (w : World σ) (str : ClientStream) (s : σ)
    (msgs : List Message) (h : ProcessedAndEqual w str s msgs) :
    (recordedOps str msgs).length = msgs.length := by
  induction msgs generalizing s with
  | nil => simp [recordedOps]
  | cons m ms ih =>
    cases hm : m.MessageOrigin with
    | ClientMessage =>
      simp only [ProcessedAndEqual, hm] at h
      simp [recordedOps, streamOp, hm, ih _ h.2]
    | ServerMessage =>
      simp only [ProcessedAndEqual, hm] at h
      simp [recordedOps, streamOp, hm, ih _ h.2]
    | other tag => simp [ProcessedAndEqual, hm] at h

theorem processed_tags {σ : Type} (w : World σ) (str : ClientStream) (s : σ)
    (msgs : List Message) (h : ProcessedAndEqual w str s msgs) :
    ∀ m ∈ msgs, m.MessageOrigin = .ClientMessage ∨ m.MessageOrigin = .ServerMessage := by
  induction msgs generalizing s with
  | nil => simp
  | cons m ms ih =>
    cases hm : m.MessageOrigin with
    | ClientMessage =>
      simp only [ProcessedAndEqual, hm] at h
      intro x hx
      rcases List.mem_cons.1 hx with rfl | hx
      · exact Or.inl hm
      · exact ih _ h.2 x hx
    | ServerMessage =>
      simp only [ProcessedAndEqual, hm] at h
      intro x hx
      rcases List.mem_cons.1 hx with rfl | hx
      · exact Or.inr hm
      · exact ih _ h.2 x hx
    | other tag => simp [ProcessedAndEqual, hm] at h

theorem recordedOps_sent (str : ClientStream) (msgs : List Message) :
    (recordedOps str msgs).filterMap sentPayload = msgs.filterMap clientPayload := by
  induction msgs with
  | nil => simp [recordedOps]
  | cons m ms ih =>
    cases hm : m.MessageOrigin <;>
      simp [recordedOps, streamOp, hm, List.filterMap_append, List.filterMap_cons, sentPayload,
        clientPayload, ih]

theorem streamName_dots_ne_ok (name : String) : name ++ "..." ≠ "OK\n" := by
  intro h
  have h1 := congrArg String.data h
  rw [String.data_append] at h1
  have h2 := congrArg List.length h1
  simp only [List.length_append] at h2
  have h3 : name.data = [] := by
    apply List.eq_nil_of_length_eq_zero
    have e1 : ("...".data).length = 3 := by decide
    have e2 : ("OK\n".data).length = 3 := by decide
    rw [e1, e2] at h2
    omega
  rw [h3] at h1
  revert h1
  decide

theorem replayMessages_no_ok {σ : Type} (w : World σ) (str : ClientStream) (s : σ)
    (msgs : List Message) : Event.stdout "OK\n" ∉ (replayMessages w str s msgs).2.1 := by
  induction msgs generalizing s with
  | nil => simp [replayMessages]
  | cons m ms ih =>
    cases hm : m.MessageOrigin with
    | ClientMessage =>
      rcases hs : w.SendMsg s str m.RawMessage with ⟨s2, _ | e⟩
      · rw [replayMessages_send_ok w str s s2 m _ hm hs]
        simpa using ih s2
      · rw [replayMessages_send_err w str s s2 m _ e hm hs]
        simp
    | ServerMessage =>
      rcases hr : w.RecvMsg s str with ⟨s2, e | resp⟩
      · rw [replayMessages_recv_err w str s s2 m _ e hm hr]
        simp
      · by_cases hne : resp = m.RawMessage
        · subst hne
          rw [replayMessages_recv_eq w str s s2 m _ hm hr]
          simpa using ih s2
        · rw [replayMessages_recv_ne w str s s2 m _ resp hm hr hne]
          simp only [List.mem_cons, List.mem_singleton, Event.stdout.injEq, not_or,
            List.not_mem_nil, or_false]
          exact ⟨by simp, by decide⟩
    | other tag =>
      rw [replayMessages_other w str s m _ tag hm]
      simp

theorem getConnection_no_ok {σ : Type}
    (G : σ → String → List DialOption → σ × Except String ClientConn)
    (cfg : Config) (s : σ) (md : MD) :
    Event.stdout "OK\n" ∉ (getConnection G cfg s md).2.1 := by
  cases h : resolveDestination cfg md with
  | none => rw [getConnection_unresolved G cfg s md h]; simp
  | some d => rw [getConnection_resolved G cfg s md d h]; simp

theorem getConnection_sent {σ : Type}
    (G : σ → String → List DialOption → σ × Except String ClientConn)
    (cfg : Config) (s : σ) (md : MD) :
    (getConnection G cfg s md).2.1.filterMap sentPayload = [] := by
  cases h : resolveDestination cfg md with
  | none => rw [getConnection_unresolved G cfg s md h]; simp
  | some d => rw [getConnection_resolved G cfg s md d h]; simp [sentPayload]

theorem stdoutOf_append (t1 t2 : List Event) :
    stdoutOf (t1 ++ t2) = stdoutOf t1 ++ stdoutOf t2 := by
  induction t1 with
  | nil => simp [stdoutOf]
  | cons e es ih => cases e <;> simp [stdoutOf, ih]

theorem getConnection_stdout {σ : Type}
    (G : σ → String → List DialOption → σ × Except String ClientConn)
    (cfg : Config) (s : σ) (md : MD) :
    stdoutOf (getConnection G cfg s md).2.1 = [] := by
  cases h : resolveDestination cfg md with
  | none => rw [getConnection_unresolved G cfg s md h]; simp [stdoutOf]
  | some d => rw [getConnection_resolved G cfg s md d h]; simp [stdoutOf]

theorem replayMessages_stdout {σ : Type} (w : World σ) (str : ClientStream) (s : σ)
    (msgs : List Message) :
    stdoutOf (replayMessages w str s msgs).2.1 =
      if (replayMessages w str s msgs).2.2 = .mismatched then ["Err mismatch\n"] else [] := by
  induction msgs generalizing s with
  | nil => simp [replayMessages, stdoutOf]
  | cons m ms ih =>
    cases hm : m.MessageOrigin with
    | ClientMessage =>
      rcases hs : w.SendMsg s str m.RawMessage with ⟨s2, _ | e⟩
      · rw [replayMessages_send_ok w str s s2 m _ hm hs]
        simpa [stdoutOf] using ih s2
      · rw [replayMessages_send_err w str s s2 m _ e hm hs]
        simp [stdoutOf]
    | ServerMessage =>
      rcases hr : w.RecvMsg s str with ⟨s2, e | resp⟩
      · rw [replayMessages_recv_err w str s s2 m _ e hm hr]
        simp [stdoutOf]
      · by_cases hne : resp = m.RawMessage
        · subst hne
          rw [replayMessages_recv_eq w str s s2 m _ hm hr]
          simpa [stdoutOf] using ih s2
        · rw [replayMessages_recv_ne w str s s2 m _ resp hm hr hne]
          simp [stdoutOf]
    | other tag =>
      rw [replayMessages_other w str s m _ tag hm]
      simp [stdoutOf]

theorem pool_hit {τ : Type}
    (dial : τ → String → List DialOption → τ × Except String ClientConn)
    (p : PoolState τ) (d : String) (o : List DialOption) (c : ClientConn)
    (h : List.lookup d p.conns = some c) :
    ConnPool.GetClientConn dial p d o = (p, .ok c) := by
  simp only [ConnPool.GetClientConn, h]

theorem pool_registers {τ : Type}
    (dial : τ → String → List DialOption → τ × Except String ClientConn)
    (p p1 : PoolState τ) (d : String) (o : List DialOption) (c : ClientConn)
    (h : ConnPool.GetClientConn dial p d o = (p1, .ok c)) :
    List.lookup d p1.conns = some c := by
  unfold ConnPool.GetClientConn at h
  cases hl : List.lookup d p.conns with
  | some c0 =>
    simp only [hl, Prod.mk.injEq, Except.ok.injEq] at h
    obtain ⟨rfl, rfl⟩ := h
    exact hl
  | none =>
    simp only [hl] at h
    rcases hd : dial p.net d o with ⟨n1, e | c1⟩
    · simp [hd] at h
    · simp only [hd, Prod.mk.injEq, Except.ok.injEq] at h
      obtain ⟨rfl, rfl⟩ := h
      simp [List.lookup]

theorem pool_keeps {τ : Type}
    (dial : τ → String → List DialOption → τ × Except String ClientConn)
    (p : PoolState τ) (d d1 : String) (o : List DialOption) (c : ClientConn)
    (h : List.lookup d p.conns = some c) :
    List.lookup d (ConnPool.GetClientConn dial p d1 o).1.conns = some c := by
  unfold ConnPool.GetClientConn
  cases hl : List.lookup d1 p.conns with
  | some c0 => simpa using h
  | none =>
    simp only
    rcases hd : dial p.net d1 o with ⟨n1, e | c1⟩
    · simpa using h
    · have hne : (d == d1) = false := by
        by_contra hcon
        simp only [Bool.not_eq_false, beq_iff_eq] at hcon
        subst hcon
        rw [h] at hl
        exact Option.noConfusion hl
      simp only [List.lookup, hne]
      exact h

theorem poolWorld_step_keeps {τ : Type}
    (dial : τ → String → List DialOption → τ × Except String ClientConn)
    (base : World τ) (p p1 : PoolState τ) (d : String) (c : ClientConn)
    (hstep : WorldStep (poolWorld dial base) p p1)
    (h : List.lookup d p.conns = some c) :
    List.lookup d p1.conns = some c := by
  cases hstep with
  | getClientConn d1 o => exact pool_keeps dial p d d1 o c h
  | newStream c1 md n => exact h
  | sendMsg str b => exact h
  | recvMsg str => exact h

theorem poolWorld_later_keeps {τ : Type}
    (dial : τ → String → List DialOption → τ × Except String ClientConn)
    (base : World τ) (p p1 : PoolState τ) (d : String) (c : ClientConn)
    (hlater : Later (poolWorld dial base) p p1)
    (h : List.lookup d p.conns = some c) :
    List.lookup d p1.conns = some c := by
  induction hlater with
  | refl => exact h
  | tail _ hstep ih => exact poolWorld_step_keeps dial base _ _ d c hstep ih

theorem replayMessages_later {σ : Type} (w : World σ) (str : ClientStream) (s : σ)
    (msgs : List Message) : Later w s (replayMessages w str s msgs).1 := by
  induction msgs generalizing s with
  | nil => exact Relation.ReflTransGen.refl
  | cons m ms ih =>
    cases hm : m.MessageOrigin with
    | ClientMessage =>
      have hstep : WorldStep w s (w.SendMsg s str m.RawMessage).1 := WorldStep.sendMsg s str _
      rcases hs : w.SendMsg s str m.RawMessage with ⟨s2, _ | e⟩
      · rw [replayMessages_send_ok w str s s2 m _ hm hs]
        rw [hs] at hstep
        exact Relation.ReflTransGen.head hstep (ih s2)
      · rw [replayMessages_send_err w str s s2 m _ e hm hs]
        rw [hs] at hstep
        exact Relation.ReflTransGen.single hstep
    | ServerMessage =>
      have hstep : WorldStep w s (w.RecvMsg s str).1 := WorldStep.recvMsg s str
      rcases hr : w.RecvMsg s str with ⟨s2, e | resp⟩
      · rw [replayMessages_recv_err w str s s2 m _ e hm hr]
        rw [hr] at hstep
        exact Relation.ReflTransGen.single hstep
      · rw [hr] at hstep
        by_cases hne : resp = m.RawMessage
        · subst hne
          rw [replayMessages_recv_eq w str s s2 m _ hm hr]
          exact Relation.ReflTransGen.head hstep (ih s2)
        · rw [replayMessages_recv_ne w str s s2 m _ resp hm hr hne]
          exact Relation.ReflTransGen.single hstep
    | other tag =>
      rw [replayMessages_other w str s m _ tag hm]
      exact Relation.ReflTransGen.refl

theorem getConnection_later {σ : Type} (w : World σ) (cfg : Config) (s : σ) (md : MD) :
    Later w s (getConnection w.GetClientConn cfg s md).1 := by
  cases h : resolveDestination cfg md with
  | none =>
    rw [getConnection_unresolved w.GetClientConn cfg s md h]
    exact Relation.ReflTransGen.refl
  | some d =>
    rw [getConnection_resolved w.GetClientConn cfg s md d h]
    exact Relation.ReflTransGen.single (WorldStep.getClientConn s d _)

theorem replayRPC_later {σ : Type} (w : World σ) (cfg : Config) (s : σ) (rpc : RPC) :
    Later w s (replayRPC w cfg s rpc).1 := by
  have hg := getConnection_later w cfg s rpc.Metadata
  rcases hconn : getConnection w.GetClientConn cfg s rpc.Metadata with ⟨s1, tc, e | conn⟩
  · rw [replayRPC_conn_err w cfg s s1 rpc tc e hconn]
    rw [hconn] at hg
    exact hg
  · rw [hconn] at hg
    have hn : WorldStep w s1 (w.NewStream s1 conn rpc.Metadata rpc.StreamName).1 :=
      WorldStep.newStream s1 conn _ _
    rcases hstr : w.NewStream s1 conn rpc.Metadata rpc.StreamName with ⟨s2, e | str⟩
    · rw [replayRPC_stream_err w cfg s s1 s2 rpc tc conn e hconn hstr]
      rw [hstr] at hn
      exact Relation.ReflTransGen.tail hg hn
    · rw [hstr] at hn
      have hm := replayMessages_later w str s2 rpc.Messages
      have h2 : Later w s (replayMessages w str s2 rpc.Messages).1 :=
        Relation.ReflTransGen.trans (Relation.ReflTransGen.tail hg hn) hm
      rcases hr : replayMessages w str s2 rpc.Messages with ⟨s3, tm, o⟩
      rw [hr] at h2
      cases o with
      | completed =>
        rw [replayRPC_completed w cfg s s1 s2 s3 rpc tc tm conn str hconn hstr hr]
        exact h2
      | mismatched =>
        rw [replayRPC_mismatched w cfg s s1 s2 s3 rpc tc tm conn str hconn hstr hr]
        exact h2
      | failed err =>
        rw [replayRPC_failed w cfg s s1 s2 s3 rpc tc tm conn str err hconn hstr hr]
        exact h2

theorem runLoop_later {σ : Type} (w : World σ) (cfg : Config) (s : σ) (dump : Dump) :
    Later w s (runLoop w cfg s dump).state := by
  induction dump generalizing s with
  | nil => exact Relation.ReflTransGen.refl
  | cons e es ih =>
    cases e with
    | error err => exact Relation.ReflTransGen.refl
    | record rpc =>
      have h1 := replayRPC_later w cfg s rpc
      rcases hr : replayRPC w cfg s rpc with ⟨s1, t1, o⟩
      rw [hr] at h1
      cases o with
      | failed err =>
        rw [runLoop_failed w cfg s s1 rpc es t1 err hr]
        exact h1
      | completed =>
        rw [runLoop_continue w cfg s s1 rpc _ t1 _ hr (Or.inl rfl)]
        exact Relation.ReflTransGen.trans h1 (ih s1)
      | mismatched =>
        rw [runLoop_continue w cfg s s1 rpc _ t1 _ hr (Or.inr rfl)]
        exact Relation.ReflTransGen.trans h1 (ih s1)

theorem run_continue_at {σ : Type} (w : World σ) (cfg : Config) (s0 s s1 : σ)
    (earlier rest : Dump) (tp t1 : List Event) (rpc : RPC) (o : Outcome)
    (hpre : runLoop w cfg s0 earlier = ⟨s, tp ++ [Event.decode], none⟩)
    (h : replayRPC w cfg s rpc = (s1, t1, o)) (ho : o = .completed ∨ o = .mismatched) :
    run w cfg s0 (.ok (earlier ++ .record rpc :: rest)) =
      ⟨(runLoop w cfg s1 rest).state, tp ++ [Event.decode] ++ t1 ++ (runLoop w cfg s1 rest).trace,
        (runLoop w cfg s1 rest).err⟩ := by
  simp only [run]
  rw [runLoop_append w cfg earlier _ s0 s tp hpre, runLoop_continue w cfg s s1 rpc rest t1 o h ho]
  simp

theorem main_of_run {σ : Type} (w : World σ) (cfg : Config) (s s1 : σ)
    (file : Except String Dump) (t : List Event) (err : String)
    (h : run w cfg s file = ⟨s1, t, some err⟩) :
    main w cfg s file = (t ++ [Event.stderr (err ++ "\n"), Event.usage], 1) := by
  simp only [main, h]

theorem streamHead_no_ok (conn : ClientConn) (rpc : RPC) :
    Event.stdout "OK\n" ∉ streamHead conn rpc := by
  intro h
  simp only [streamHead, List.mem_cons, List.mem_singleton, Event.stdout.injEq,
    List.not_mem_nil, or_false] at h
  rcases h with h | h
  · exact Event.noConfusion h
  · exact streamName_dots_ne_ok rpc.StreamName h.symm

/-! ## Mismatch is recovered locally -/

/-- C1: in `run`, at any place of any dump, when the bytes received for a
server-origin message differ from the recorded payload, (a) the trace of that
record stops at the receive, whatever messages follow in the record, (b) the
line `Err mismatch` is printed, (c) the error `run` returns is the one the rest
of the dump yields, and (d) the rest of the dump is decoded and replayed from
the state after the receive, exactly as after the same record recorded with
the bytes the server sent, which ends in `OK`. -/
theorem run_mismatch_continues {σ : Type} (w : World σ) (cfg : Config)
    (s0 s s1 s2 s3 s4 : σ) (earlier rest : Dump) (tp tc tb : List Event) (rpc : RPC)
    (conn : ClientConn) (str : ClientStream) (before after : List Message)
    (recorded resp : Bytes)
    (hpre : runLoop w cfg s0 earlier = ⟨s, tp ++ [Event.decode], none⟩)
    (hconn : getConnection w.GetClientConn cfg s rpc.Metadata = (s1, tc, .ok conn))
    (hstr : w.NewStream s1 conn rpc.Metadata rpc.StreamName = (s2, .ok str))
    (hmsgs : rpc.Messages = before ++ ⟨.ServerMessage, recorded⟩ :: after)
    (hbefore : replayMessages w str s2 before = (s3, tb, .completed))
    (hrecv : w.RecvMsg s3 str = (s4, .ok resp))
    (hne : resp ≠ recorded) :
    run w cfg s0 (.ok (earlier ++ .record rpc :: rest)) =
      ⟨(runLoop w cfg s4 rest).state,
        tp ++ [Event.decode] ++ tc ++ streamHead conn rpc ++ tb ++
          [Event.recvMsg str, Event.stdout "Err mismatch\n"] ++ (runLoop w cfg s4 rest).trace,
        (runLoop w cfg s4 rest).err⟩ ∧
    run w cfg s0 (.ok (earlier ++
        .record ⟨rpc.Metadata, rpc.StreamName, before ++ [⟨.ServerMessage, resp⟩]⟩ :: rest)) =
      ⟨(runLoop w cfg s4 rest).state,
        tp ++ [Event.decode] ++ tc ++ streamHead conn rpc ++ tb ++
          [Event.recvMsg str, Event.stdout "OK\n"] ++ (runLoop w cfg s4 rest).trace,
        (runLoop w cfg s4 rest).err⟩ := by
  constructor
  · have hm : replayMessages w str s2 rpc.Messages =
        (s4, tb ++ [Event.recvMsg str, Event.stdout "Err mismatch\n"], .mismatched) := by
      rw [hmsgs, replayMessages_append w str before _ s2 s3 tb hbefore,
        replayMessages_recv_ne w str s3 s4 ⟨.ServerMessage, recorded⟩ after resp rfl hrecv hne]
    have hr := replayRPC_mismatched w cfg s s1 s2 s4 rpc tc _ conn str hconn hstr hm
    simp only [run]
    rw [runLoop_append w cfg earlier _ s0 s tp hpre,
      runLoop_continue w cfg s s4 rpc rest _ _ hr (Or.inr rfl)]
    simp
  · have hm : replayMessages w str s2 (before ++ [⟨.ServerMessage, resp⟩]) =
        (s4, tb ++ [Event.recvMsg str], .completed) := by
      rw [replayMessages_append w str before _ s2 s3 tb hbefore,
        replayMessages_recv_eq w str s3 s4 ⟨.ServerMessage, resp⟩ [] rfl hrecv]
      simp [replayMessages]
    have hr := replayRPC_completed w cfg s s1 s2 s4
      ⟨rpc.Metadata, rpc.StreamName, before ++ [⟨.ServerMessage, resp⟩]⟩ tc _ conn str
      hconn hstr hm
    simp only [run]
    rw [runLoop_append w cfg earlier _ s0 s tp hpre,
      runLoop_continue w cfg s s4 _ rest _ _ hr (Or.inl rfl)]
    simp [streamHead]

/-- The server answers `resp2` where `resp1` was recorded: the first record
ends in a mismatch with its last message never sent, and the second record is
replayed to `OK`. -/
theorem run_mismatch_continues_witness :
    run scriptedWorld plainConfig [resp2, resp1]
        (.ok ([] ++ .record ⟨exampleRPC.Metadata, "pkg.Svc/Method",
          [⟨.ClientMessage, req1⟩] ++ ⟨.ServerMessage, resp1⟩ :: [⟨.ClientMessage, req1⟩]⟩ ::
          [.record exampleRPC])) =
      ⟨[], [Event.decode,
          Event.getClientConn "localhost:50051"
            [.forceNoopCodec, .withBlock, .withInsecure],
          Event.newStream 7 exampleRPC.Metadata "pkg.Svc/Method",
          Event.stdout "pkg.Svc/Method...",
          Event.sendMsg 1 req1, Event.recvMsg 1, Event.stdout "Err mismatch\n",
          Event.decode,
          Event.getClientConn "localhost:50051"
            [.forceNoopCodec, .withBlock, .withInsecure],
          Event.newStream 7 exampleRPC.Metadata "pkg.Svc/Method",
          Event.stdout "pkg.Svc/Method...",
          Event.sendMsg 1 req1, Event.recvMsg 1, Event.stdout "OK\n",
          Event.decode], none⟩ :=
  (run_mismatch_continues scriptedWorld plainConfig [resp2, resp1] [resp2, resp1]
    [resp2, resp1] [resp2, resp1] [resp2, resp1] [resp1] [] [.record exampleRPC] []
    [Event.getClientConn "localhost:50051" [.forceNoopCodec, .withBlock, .withInsecure]]
    [Event.sendMsg 1 req1]
    ⟨exampleRPC.Metadata, "pkg.Svc/Method",
      [⟨.ClientMessage, req1⟩] ++ ⟨.ServerMessage, resp1⟩ :: [⟨.ClientMessage, req1⟩]⟩
    7 1 [⟨.ClientMessage, req1⟩] [⟨.ClientMessage, req1⟩] resp1 resp2
    rfl rfl rfl rfl rfl rfl (by decide)).1

/-! ## Every other failure is fatal -/

/-- C2: in `run`, at any place of any dump, each failure other than a mismatch
(the dump cannot be opened, a decode error, no destination, a connect failure,
a stream open failure, a send failure, a receive failure, an invalid origin
tag) makes `run` return an error with the trace ending at the failing
operation, whatever messages and records follow; and on an opened dump `run`
returns nil exactly when every record up to end-of-input ended in OK or in a
mismatch. -/
theorem run_fatal_or_nil {σ : Type} (w : World σ) (cfg : Config) (s0 s : σ)
    (earlier rest : Dump) (tp : List Event)
    (hpre : runLoop w cfg s0 earlier = ⟨s, tp ++ [Event.decode], none⟩) :
    (∀ err, run w cfg s0 (.error err) = ⟨s0, [], some err⟩) ∧
    (∀ err, run w cfg s0 (.ok (earlier ++ .error err :: rest)) =
      ⟨s, tp ++ [Event.decode], some ("failed to decode dump: " ++ err)⟩) ∧
    (∀ rpc, resolveDestination cfg rpc.Metadata = none →
      run w cfg s0 (.ok (earlier ++ .record rpc :: rest)) =
        ⟨s, tp ++ [Event.decode],
          some ("failed to connect to destination (" ++ cfg.destinationOverride ++ "): "
            ++ resolutionError)⟩) ∧
    (∀ rpc d s1 err, resolveDestination cfg rpc.Metadata = some d →
      w.GetClientConn s d (dialOptions cfg rpc.Metadata) = (s1, .error err) →
      run w cfg s0 (.ok (earlier ++ .record rpc :: rest)) =
        ⟨s1, tp ++ [Event.decode, Event.getClientConn d (dialOptions cfg rpc.Metadata)],
          some ("failed to connect to destination (" ++ cfg.destinationOverride ++ "): "
            ++ err)⟩) ∧
    (∀ rpc s1 s2 tc conn err,
      getConnection w.GetClientConn cfg s rpc.Metadata = (s1, tc, .ok conn) →
      w.NewStream s1 conn rpc.Metadata rpc.StreamName = (s2, .error err) →
      run w cfg s0 (.ok (earlier ++ .record rpc :: rest)) =
        ⟨s2, tp ++ [Event.decode] ++ tc ++ [Event.newStream conn rpc.Metadata rpc.StreamName],
          some ("failed to make new stream: " ++ err)⟩) ∧
    (∀ rpc s1 s2 s3 tc tb conn str before after,
      getConnection w.GetClientConn cfg s rpc.Metadata = (s1, tc, .ok conn) →
      w.NewStream s1 conn rpc.Metadata rpc.StreamName = (s2, .ok str) →
      replayMessages w str s2 before = (s3, tb, .completed) →
      (∀ payload s4 err, rpc.Messages = before ++ ⟨.ClientMessage, payload⟩ :: after →
        w.SendMsg s3 str payload = (s4, some err) →
        run w cfg s0 (.ok (earlier ++ .record rpc :: rest)) =
          ⟨s4, tp ++ [Event.decode] ++ tc ++ streamHead conn rpc ++ tb ++
            [Event.sendMsg str payload], some ("failed to send message: " ++ err)⟩) ∧
      (∀ recorded s4 err, rpc.Messages = before ++ ⟨.ServerMessage, recorded⟩ :: after →
        w.RecvMsg s3 str = (s4, .error err) →
        run w cfg s0 (.ok (earlier ++ .record rpc :: rest)) =
          ⟨s4, tp ++ [Event.decode] ++ tc ++ streamHead conn rpc ++ tb ++
            [Event.recvMsg str], some ("failed to recv message: " ++ err)⟩) ∧
      (∀ tag payload, rpc.Messages = before ++ ⟨.other tag, payload⟩ :: after →
        run w cfg s0 (.ok (earlier ++ .record rpc :: rest)) =
          ⟨s3, tp ++ [Event.decode] ++ tc ++ streamHead conn rpc ++ tb,
            some ("invalid message type: " ++ tag)⟩)) ∧
    (∀ dump, (run w cfg s0 (.ok dump)).err = none ↔ EndsOKOrMismatch w cfg s0 dump) := by
  refine ⟨fun err => rfl, ?_, ?_, ?_, ?_, ?_, ?_⟩
  · intro err
    simp only [run]
    rw [runLoop_append w cfg earlier _ s0 s tp hpre]
    simp [runLoop]
  · intro rpc hres
    have h := replayRPC_conn_err w cfg s s rpc [] _
      (getConnection_unresolved w.GetClientConn cfg s rpc.Metadata hres)
    rw [run_failed_at w cfg s0 s s earlier rest tp _ rpc _ hpre h]
    simp
  · intro rpc d s1 err hres hdial
    have hc := getConnection_resolved w.GetClientConn cfg s rpc.Metadata d hres
    rw [hdial] at hc
    have h := replayRPC_conn_err w cfg s s1 rpc _ _ hc
    rw [run_failed_at w cfg s0 s s1 earlier rest tp _ rpc _ hpre h]
    simp
  · intro rpc s1 s2 tc conn err hconn hstr
    have h := replayRPC_stream_err w cfg s s1 s2 rpc tc conn err hconn hstr
    rw [run_failed_at w cfg s0 s s2 earlier rest tp _ rpc _ hpre h]
    simp
  · intro rpc s1 s2 s3 tc tb conn str before after hconn hstr hbefore
    refine ⟨?_, ?_, ?_⟩
    · intro payload s4 err hmsgs hsend
      have hm : replayMessages w str s2 rpc.Messages =
          (s4, tb ++ [Event.sendMsg str payload],
            .failed ("failed to send message: " ++ err)) := by
        rw [hmsgs, replayMessages_append w str before _ s2 s3 tb hbefore,
          replayMessages_send_err w str s3 s4 ⟨.ClientMessage, payload⟩ after err rfl hsend]
      have h := replayRPC_failed w cfg s s1 s2 s4 rpc tc _ conn str _ hconn hstr hm
      rw [run_failed_at w cfg s0 s s4 earlier rest tp _ rpc _ hpre h]
      simp
    · intro recorded s4 err hmsgs hrecv
      have hm : replayMessages w str s2 rpc.Messages =
          (s4, tb ++ [Event.recvMsg str], .failed ("failed to recv message: " ++ err)) := by
        rw [hmsgs, replayMessages_append w str before _ s2 s3 tb hbefore,
          replayMessages_recv_err w str s3 s4 ⟨.ServerMessage, recorded⟩ after err rfl hrecv]
      have h := replayRPC_failed w cfg s s1 s2 s4 rpc tc _ conn str _ hconn hstr hm
      rw [run_failed_at w cfg s0 s s4 earlier rest tp _ rpc _ hpre h]
      simp
    · intro tag payload hmsgs
      have hm : replayMessages w str s2 rpc.Messages =
          (s3, tb, .failed ("invalid message type: " ++ tag)) := by
        rw [hmsgs, replayMessages_append w str before _ s2 s3 tb hbefore,
          replayMessages_other w str s3 ⟨.other tag, payload⟩ after tag rfl]
        simp
      have h := replayRPC_failed w cfg s s1 s2 s3 rpc tc _ conn str _ hconn hstr hm
      rw [run_failed_at w cfg s0 s s3 earlier rest tp _ rpc _ hpre h]
      simp
  · intro dump
    exact runLoop_nil_iff w cfg s0 dump

/-- After one record replayed to `OK`, the server has nothing more to say: the
receive of the second record fails, `run` returns the error, and the third
entry of the dump is never decoded. -/
theorem run_fatal_or_nil_witness :
    run scriptedWorld plainConfig [resp1]
        (.ok ([.record exampleRPC] ++ .record exampleRPC :: [.error "unexpected EOF"])) =
      ⟨[], [Event.decode,
          Event.getClientConn "localhost:50051" [.forceNoopCodec, .withBlock, .withInsecure],
          Event.newStream 7 exampleRPC.Metadata "pkg.Svc/Method",
          Event.stdout "pkg.Svc/Method...",
          Event.sendMsg 1 req1, Event.recvMsg 1, Event.stdout "OK\n"] ++ [Event.decode] ++
          [Event.getClientConn "localhost:50051" [.forceNoopCodec, .withBlock, .withInsecure]]
          ++ streamHead 7 exampleRPC ++ [Event.sendMsg 1 req1] ++ [Event.recvMsg 1],
        some ("failed to recv message: " ++ "EOF")⟩ :=
  ((run_fatal_or_nil scriptedWorld plainConfig [resp1] [] [.record exampleRPC]
    [.error "unexpected EOF"] _ rfl).2.2.2.2.2.1 exampleRPC [] [] [] _ _ 7 1
    [⟨.ClientMessage, req1⟩] [] rfl rfl rfl).2.1 resp1 [] "EOF" rfl rfl

/-! ## Destination resolution and dial options -/

/-- C3: in `getConnection`, for every metadata, a configured (non-empty)
override is the destination passed to the pool whatever the metadata holds;
with no override the destination is the first `:authority` value; and
`getConnection` fails with the resolution error without calling the pool
exactly when the override is empty and the metadata has no `:authority`
value. -/
theorem getConnection_destination {σ : Type}
    (G : σ → String → List DialOption → σ × Except String ClientConn)
    (cfg : Config) (s : σ) (md : MD) :
    (cfg.destinationOverride ≠ "" →
      getConnection G cfg s md =
        ((G s cfg.destinationOverride (dialOptions cfg md)).1,
          [Event.getClientConn cfg.destinationOverride (dialOptions cfg md)],
          (G s cfg.destinationOverride (dialOptions cfg md)).2)) ∧
    (∀ a more, cfg.destinationOverride = "" → md.GetAuthority = a :: more →
      getConnection G cfg s md =
        ((G s a (dialOptions cfg md)).1, [Event.getClientConn a (dialOptions cfg md)],
          (G s a (dialOptions cfg md)).2)) ∧
    (getConnection G cfg s md = (s, [], .error resolutionError) ↔
      (cfg.destinationOverride = "" ∧ md.GetAuthority = [])) ∧
    ((getConnection G cfg s md).2.1 = [] ↔
      (cfg.destinationOverride = "" ∧ md.GetAuthority = [])) := by
  refine ⟨?_, ?_, ?_, ?_⟩
  · intro h
    exact getConnection_resolved G cfg s md _ (by simp [resolveDestination, h])
  · intro a more h hget
    exact getConnection_resolved G cfg s md _ (by simp [resolveDestination, h, hget])
  · by_cases h : cfg.destinationOverride = ""
    · cases hget : md.GetAuthority with
      | nil =>
        simp [h, getConnection_unresolved G cfg s md (by simp [resolveDestination, h, hget])]
      | cons a more =>
        rw [getConnection_resolved G cfg s md a (by simp [resolveDestination, h, hget])]
        simp
    · rw [getConnection_resolved G cfg s md cfg.destinationOverride
        (by simp [resolveDestination, h])]
      simp [h]
  · by_cases h : cfg.destinationOverride = ""
    · cases hget : md.GetAuthority with
      | nil =>
        simp [h, getConnection_unresolved G cfg s md (by simp [resolveDestination, h, hget])]
      | cons a more =>
        rw [getConnection_resolved G cfg s md a (by simp [resolveDestination, h, hget])]
        simp
    · rw [getConnection_resolved G cfg s md cfg.destinationOverride
        (by simp [resolveDestination, h])]
      simp [h]

/-- With the override `example.org:443`, metadata naming another authority is
ignored. -/
theorem getConnection_destination_witness :
    getConnection scriptedWorld.GetClientConn ⟨"example.org:443", fun _ => false⟩ []
        [(":authority", ["localhost:50051"])] =
      ([], [Event.getClientConn "example.org:443"
        [.forceNoopCodec, .withBlock, .withInsecure]], .ok 7) :=
  (getConnection_destination scriptedWorld.GetClientConn
    ⟨"example.org:443", fun _ => false⟩ [] [(":authority", ["localhost:50051"])]).1
    (by decide)

/-- C9: for every metadata for which resolution succeeds, the options
`getConnection` hands to the pool are the codec option, the blocking option
and exactly one transport-security option, the TLS one when `tls.IsTLSRPC`
holds of the metadata and the insecure one otherwise; the options are the same
under any other override. -/
theorem getConnection_security_option {σ : Type}
    (G : σ → String → List DialOption → σ × Except String ClientConn)
    (cfg : Config) (s : σ) (md : MD) (d : String)
    (hres : resolveDestination cfg md = some d) :
    (getConnection G cfg s md).2.1 = [Event.getClientConn d (dialOptions cfg md)] ∧
    dialOptions cfg md = [DialOption.forceNoopCodec, DialOption.withBlock,
      if cfg.IsTLSRPC md then DialOption.withTransportCredentialsTLS
      else DialOption.withInsecure] ∧
    (dialOptions cfg md).filter DialOption.isTransportSecurity =
      [if cfg.IsTLSRPC md then DialOption.withTransportCredentialsTLS
       else DialOption.withInsecure] ∧
    (∀ override, dialOptions ⟨override, cfg.IsTLSRPC⟩ md = dialOptions cfg md) := by
  refine ⟨?_, ?_, ?_, fun _ => rfl⟩
  · rw [getConnection_resolved G cfg s md d hres]
  · cases h : cfg.IsTLSRPC md <;> simp [dialOptions, h]
  · cases h : cfg.IsTLSRPC md <;>
      simp [dialOptions, h, List.filter, DialOption.isTransportSecurity]

/-- Metadata that the TLS predicate accepts gets the TLS option and no
insecure one. -/
theorem getConnection_security_option_witness :
    dialOptions ⟨"", fun md => List.lookup ":scheme" md == some ["https"]⟩
        [(":authority", ["localhost:50051"]), (":scheme", ["https"])] =
      [DialOption.forceNoopCodec, DialOption.withBlock,
        DialOption.withTransportCredentialsTLS] :=
  (getConnection_security_option scriptedWorld.GetClientConn
    ⟨"", fun md => List.lookup ":scheme" md == some ["https"]⟩ []
    [(":authority", ["localhost:50051"]), (":scheme", ["https"])] "localhost:50051"
    (by decide)).2.1

/-! ## A faithful exchange -/

/-- C4, as stated, fails: the record `tagBetweenRPC` is replayed with no
transport fault and no mismatch, every send succeeding, yet the one payload
sent is `req1`, where the client-origin payloads of the record are `req1` and
`resp1`: the unknown tag between them ends the run. -/
theorem invalid_tag_cuts_replay :
    run scriptedWorld plainConfig [] (.ok [.record tagBetweenRPC]) =
      ⟨[], [Event.decode,
          Event.getClientConn "localhost:50051" [.forceNoopCodec, .withBlock, .withInsecure],
          Event.newStream 7 [(":authority", ["localhost:50051"])] "pkg.Svc/Method",
          Event.stdout "pkg.Svc/Method...",
          Event.sendMsg 1 req1],
        some "invalid message type: bogus"⟩ ∧
    (run scriptedWorld plainConfig [] (.ok [.record tagBetweenRPC])).trace.filterMap sentPayload
      = [req1] ∧
    tagBetweenRPC.Messages.filterMap clientPayload = [req1, resp1] :=
  ⟨rfl, rfl, rfl⟩

/-- C4, amended: for every recorded RPC all of whose messages carry the client
or the server tag, replayed with no transport fault and no mismatch, at any
place of any dump, the operations `run` performs on the stream are exactly
the recorded message sequence in recorded order, one send carrying the
recorded payload for each client-origin message and one receive for each
server-origin message, between the printing of the stream name and of `OK`;
and the payloads sent are the client-origin payloads of the record, in
recorded order. -/
theorem run_reproduces_recording {σ : Type} (w : World σ) (cfg : Config)
    (s0 s s1 s2 : σ) (earlier rest : Dump) (tp tc : List Event) (rpc : RPC)
    (conn : ClientConn) (str : ClientStream)
    (hpre : runLoop w cfg s0 earlier = ⟨s, tp ++ [Event.decode], none⟩)
    (hconn : getConnection w.GetClientConn cfg s rpc.Metadata = (s1, tc, .ok conn))
    (hstr : w.NewStream s1 conn rpc.Metadata rpc.StreamName = (s2, .ok str))
    (hok : ProcessedAndEqual w str s2 rpc.Messages) :
    run w cfg s0 (.ok (earlier ++ .record rpc :: rest)) =
      ⟨(runLoop w cfg (replayMessages w str s2 rpc.Messages).1 rest).state,
        tp ++ [Event.decode] ++ tc ++ streamHead conn rpc ++ recordedOps str rpc.Messages ++
          [Event.stdout "OK\n"] ++
          (runLoop w cfg (replayMessages w str s2 rpc.Messages).1 rest).trace,
        (runLoop w cfg (replayMessages w str s2 rpc.Messages).1 rest).err⟩ ∧
    (recordedOps str rpc.Messages).length = rpc.Messages.length ∧
    (∀ m ∈ rpc.Messages, m.MessageOrigin = .ClientMessage ∨ m.MessageOrigin = .ServerMessage) ∧
    (tc ++ streamHead conn rpc ++ recordedOps str rpc.Messages ++
        [Event.stdout "OK\n"]).filterMap sentPayload =
      rpc.Messages.filterMap clientPayload := by
  obtain ⟨ht, ho⟩ := replayMessages_of_processed w str s2 rpc.Messages hok
  have hm : replayMessages w str s2 rpc.Messages =
      ((replayMessages w str s2 rpc.Messages).1, recordedOps str rpc.Messages, .completed) := by
    rw [← ht, ← ho]
  have hr := replayRPC_completed w cfg s s1 s2 _ rpc tc _ conn str hconn hstr hm
  have hc := getConnection_sent w.GetClientConn cfg s rpc.Metadata
  rw [hconn] at hc
  refine ⟨?_, recordedOps_length_of_processed w str s2 rpc.Messages hok,
    processed_tags w str s2 rpc.Messages hok, ?_⟩
  · rw [run_continue_at w cfg s0 s _ earlier rest tp _ rpc _ hpre hr (Or.inl rfl)]
    simp
  · simp only [List.filterMap_append, recordedOps_sent]
    simp only at hc
    simp [hc, streamHead, sentPayload]

/-- After a record that ended in a mismatch, the record of the end-to-end
scenario is answered `resp1`: one send of `req1`, then one receive, then
`OK`. -/
theorem run_reproduces_recording_witness :
    run scriptedWorld plainConfig [resp2, resp1]
        (.ok ([.record exampleRPC] ++ .record exampleRPC :: [])) =
      ⟨[], [Event.decode,
          Event.getClientConn "localhost:50051" [.forceNoopCodec, .withBlock, .withInsecure],
          Event.newStream 7 exampleRPC.Metadata "pkg.Svc/Method",
          Event.stdout "pkg.Svc/Method...",
          Event.sendMsg 1 req1, Event.recvMsg 1, Event.stdout "Err mismatch\n"] ++
          [Event.decode] ++
          [Event.getClientConn "localhost:50051" [.forceNoopCodec, .withBlock, .withInsecure]]
          ++ streamHead 7 exampleRPC ++ recordedOps 1 exampleRPC.Messages ++
          [Event.stdout "OK\n"] ++ [Event.decode], none⟩ :=
  (run_reproduces_recording scriptedWorld plainConfig [resp2, resp1] [resp1] [resp1] [resp1]
    [.record exampleRPC] [] _ _ exampleRPC 7 1 rfl rfl rfl ⟨rfl, rfl, trivial⟩).1

/-! ## When `OK` is reported -/

/-- C5, as stated, fails: the record `emptyRPC` has an empty message sequence,
so every message of it is processed with no error, yet in a world where no
stream opens `run` returns the stream error and `OK` is not printed. -/
theorem empty_rpc_without_stream_not_ok :
    emptyRPC.Messages = [] ∧
    run noStreamWorld plainConfig () (.ok [.record emptyRPC]) =
      ⟨(), [Event.decode,
          Event.getClientConn "localhost:50051" [.forceNoopCodec, .withBlock, .withInsecure],
          Event.newStream 7 [(":authority", ["localhost:50051"])] "pkg.Svc/Method"],
        some "failed to make new stream: unavailable"⟩ ∧
    Event.stdout "OK\n" ∉ (run noStreamWorld plainConfig () (.ok [.record emptyRPC])).trace :=
  ⟨rfl, rfl, by decide⟩

/-- C5, amended: for a recorded RPC at any place of any dump whose connection
was obtained and whose stream was opened, `run` prints `OK` for it, after the
recorded operations, if every message of its sequence was processed with no
error and every server-origin message was received with exactly the recorded
bytes, and otherwise prints no `OK` for it, the record ending in a mismatch
or in the error `run` returns; such an RPC with no messages is reported `OK`;
a record whose connection or stream cannot be opened gets no `OK`; and the
record with stream id `pkg.Svc/Method` and messages client `req1`, server
`resp1`, against a server that answers `resp1`, is reported `OK`. -/
theorem run_reports_ok_iff {σ : Type} (w : World σ) (cfg : Config) (s0 s : σ)
    (earlier rest : Dump) (tp : List Event) (rpc : RPC)
    (hpre : runLoop w cfg s0 earlier = ⟨s, tp ++ [Event.decode], none⟩) :
    (∀ s1 s2 tc conn str,
      getConnection w.GetClientConn cfg s rpc.Metadata = (s1, tc, .ok conn) →
      w.NewStream s1 conn rpc.Metadata rpc.StreamName = (s2, .ok str) →
      (ProcessedAndEqual w str s2 rpc.Messages →
        run w cfg s0 (.ok (earlier ++ .record rpc :: rest)) =
          ⟨(runLoop w cfg (replayMessages w str s2 rpc.Messages).1 rest).state,
            tp ++ [Event.decode] ++ tc ++ streamHead conn rpc ++
              recordedOps str rpc.Messages ++ [Event.stdout "OK\n"] ++
              (runLoop w cfg (replayMessages w str s2 rpc.Messages).1 rest).trace,
            (runLoop w cfg (replayMessages w str s2 rpc.Messages).1 rest).err⟩) ∧
      (¬ ProcessedAndEqual w str s2 rpc.Messages →
        Event.stdout "OK\n" ∉
          tc ++ streamHead conn rpc ++ (replayMessages w str s2 rpc.Messages).2.1 ∧
        (((replayMessages w str s2 rpc.Messages).2.2 = .mismatched ∧
          run w cfg s0 (.ok (earlier ++ .record rpc :: rest)) =
            ⟨(runLoop w cfg (replayMessages w str s2 rpc.Messages).1 rest).state,
              tp ++ [Event.decode] ++ tc ++ streamHead conn rpc ++
                (replayMessages w str s2 rpc.Messages).2.1 ++
                (runLoop w cfg (replayMessages w str s2 rpc.Messages).1 rest).trace,
              (runLoop w cfg (replayMessages w str s2 rpc.Messages).1 rest).err⟩) ∨
        (∃ err, (replayMessages w str s2 rpc.Messages).2.2 = .failed err ∧
          run w cfg s0 (.ok (earlier ++ .record rpc :: rest)) =
            ⟨(replayMessages w str s2 rpc.Messages).1,
              tp ++ [Event.decode] ++ tc ++ streamHead conn rpc ++
                (replayMessages w str s2 rpc.Messages).2.1,
              some err⟩))) ∧
      (rpc.Messages = [] →
        run w cfg s0 (.ok (earlier ++ .record rpc :: rest)) =
          ⟨(runLoop w cfg s2 rest).state,
            tp ++ [Event.decode] ++ tc ++ streamHead conn rpc ++ [Event.stdout "OK\n"] ++
              (runLoop w cfg s2 rest).trace,
            (runLoop w cfg s2 rest).err⟩)) ∧
    (∀ s1 tc err,
      getConnection w.GetClientConn cfg s rpc.Metadata = (s1, tc, .error err) →
      Event.stdout "OK\n" ∉ tc ∧
      run w cfg s0 (.ok (earlier ++ .record rpc :: rest)) =
        ⟨s1, tp ++ [Event.decode] ++ tc,
          some ("failed to connect to destination (" ++ cfg.destinationOverride ++ "): "
            ++ err)⟩) ∧
    (∀ s1 s2 tc conn err,
      getConnection w.GetClientConn cfg s rpc.Metadata = (s1, tc, .ok conn) →
      w.NewStream s1 conn rpc.Metadata rpc.StreamName = (s2, .error err) →
      Event.stdout "OK\n" ∉ tc ++ [Event.newStream conn rpc.Metadata rpc.StreamName] ∧
      run w cfg s0 (.ok (earlier ++ .record rpc :: rest)) =
        ⟨s2, tp ++ [Event.decode] ++ tc ++ [Event.newStream conn rpc.Metadata rpc.StreamName],
          some ("failed to make new stream: " ++ err)⟩) ∧
    run scriptedWorld plainConfig [resp1] (.ok [.record exampleRPC]) =
      ⟨[], [Event.decode,
          Event.getClientConn "localhost:50051" [.forceNoopCodec, .withBlock, .withInsecure],
          Event.newStream 7 [(":authority", ["localhost:50051"])] "pkg.Svc/Method",
          Event.stdout "pkg.Svc/Method...",
          Event.sendMsg 1 req1, Event.recvMsg 1, Event.stdout "OK\n", Event.decode],
        none⟩ := by
  have hg := getConnection_no_ok w.GetClientConn cfg s rpc.Metadata
  refine ⟨?_, ?_, ?_, rfl⟩
  · intro s1 s2 tc conn str hconn hstr
    rw [hconn] at hg
    simp only at hg
    refine ⟨?_, ?_, ?_⟩
    · intro hok
      obtain ⟨ht, ho⟩ := replayMessages_of_processed w str s2 rpc.Messages hok
      have hm : replayMessages w str s2 rpc.Messages =
          ((replayMessages w str s2 rpc.Messages).1, recordedOps str rpc.Messages,
            .completed) := by rw [← ht, ← ho]
      have hr := replayRPC_completed w cfg s s1 s2 _ rpc tc _ conn str hconn hstr hm
      rw [run_continue_at w cfg s0 s _ earlier rest tp _ rpc _ hpre hr (Or.inl rfl)]
      simp
    · intro hnot
      have hno := replayMessages_no_ok w str s2 rpc.Messages
      have hcomp : (replayMessages w str s2 rpc.Messages).2.2 ≠ .completed :=
        fun h => hnot (processed_of_completed w str s2 rpc.Messages h)
      refine ⟨?_, ?_⟩
      · simp only [List.mem_append, not_or]
        exact ⟨⟨hg, streamHead_no_ok conn rpc⟩, hno⟩
      · rcases hm : replayMessages w str s2 rpc.Messages with ⟨s3, tm, o⟩
        rw [hm] at hcomp
        cases o with
        | completed => exact absurd rfl hcomp
        | mismatched =>
          left
          have hr := replayRPC_mismatched w cfg s s1 s2 s3 rpc tc tm conn str hconn hstr hm
          rw [run_continue_at w cfg s0 s _ earlier rest tp _ rpc _ hpre hr (Or.inr rfl)]
          simp
        | failed err =>
          right
          have hr := replayRPC_failed w cfg s s1 s2 s3 rpc tc tm conn str err hconn hstr hm
          rw [run_failed_at w cfg s0 s s3 earlier rest tp _ rpc _ hpre hr]
          exact ⟨err, rfl, by simp⟩
    · intro hnil
      have hm : replayMessages w str s2 rpc.Messages = (s2, [], .completed) := by
        rw [hnil, replayMessages]
      have hr := replayRPC_completed w cfg s s1 s2 s2 rpc tc [] conn str hconn hstr hm
      rw [run_continue_at w cfg s0 s _ earlier rest tp _ rpc _ hpre hr (Or.inl rfl)]
      simp
  · intro s1 tc err hconn
    rw [hconn] at hg
    have h := replayRPC_conn_err w cfg s s1 rpc tc err hconn
    rw [run_failed_at w cfg s0 s s1 earlier rest tp _ rpc _ hpre h]
    exact ⟨hg, rfl⟩
  · intro s1 s2 tc conn err hconn hstr
    rw [hconn] at hg
    simp only at hg
    have h := replayRPC_stream_err w cfg s s1 s2 rpc tc conn err hconn hstr
    rw [run_failed_at w cfg s0 s s2 earlier rest tp _ rpc _ hpre h]
    refine ⟨?_, by simp⟩
    simp only [List.mem_append, List.mem_singleton, reduceCtorEq, or_false]
    exact hg

/-- After a record that ended in a mismatch, the record of the end-to-end
scenario is answered `resp1` and is reported `OK`, and the run goes on to the
record after it, which finds the server silent. -/
theorem run_reports_ok_iff_witness :
    run scriptedWorld plainConfig [resp2, resp1]
        (.ok ([.record exampleRPC] ++ .record exampleRPC :: [.record exampleRPC])) =
      ⟨[], [Event.decode,
          Event.getClientConn "localhost:50051" [.forceNoopCodec, .withBlock, .withInsecure],
          Event.newStream 7 exampleRPC.Metadata "pkg.Svc/Method",
          Event.stdout "pkg.Svc/Method...",
          Event.sendMsg 1 req1, Event.recvMsg 1, Event.stdout "Err mismatch\n"] ++
          [Event.decode] ++
          [Event.getClientConn "localhost:50051" [.forceNoopCodec, .withBlock, .withInsecure]]
          ++ streamHead 7 exampleRPC ++ recordedOps 1 exampleRPC.Messages ++
          [Event.stdout "OK\n"] ++
          [Event.decode,
            Event.getClientConn "localhost:50051" [.forceNoopCodec, .withBlock, .withInsecure],
            Event.newStream 7 exampleRPC.Metadata "pkg.Svc/Method",
            Event.stdout "pkg.Svc/Method...",
            Event.sendMsg 1 req1, Event.recvMsg 1],
        some "failed to recv message: EOF"⟩ :=
  ((run_reports_ok_iff scriptedWorld plainConfig [resp2, resp1] [resp1]
    [.record exampleRPC] [.record exampleRPC] _ exampleRPC rfl).1
    [resp1] [resp1] _ 7 1 rfl rfl).1 ⟨rfl, rfl, trivial⟩

/-! ## Invalid origin tags -/

/-- C6, as stated, fails: the record `badTagRPC` contains a message with the
tag `bogus`, yet against a server answering `resp2` where `resp1` was recorded
the record ends in a mismatch before that message is looked at, and `run`
returns nil. -/
theorem invalid_tag_behind_mismatch_not_fatal :
    (∃ m ∈ badTagRPC.Messages, m.MessageOrigin = .other "bogus") ∧
    run scriptedWorld plainConfig [resp2] (.ok [.record badTagRPC]) =
      ⟨[], [Event.decode,
          Event.getClientConn "localhost:50051" [.forceNoopCodec, .withBlock, .withInsecure],
          Event.newStream 7 [(":authority", ["localhost:50051"])] "pkg.Svc/Method",
          Event.stdout "pkg.Svc/Method...",
          Event.recvMsg 1, Event.stdout "Err mismatch\n", Event.decode],
        none⟩ :=
  ⟨⟨⟨.other "bogus", []⟩, by simp [badTagRPC], rfl⟩, rfl⟩

/-- C6, amended: for every recorded RPC whose connection and stream were
opened and whose messages before a message with a tag that is neither client
nor server were all processed with no error and no mismatch, `run` returns
the invalid-message-type error at that message, having performed the recorded
operations of the messages before it and nothing after. -/
theorem run_invalid_tag_fatal {σ : Type} (w : World σ) (cfg : Config)
    (s0 s s1 s2 : σ) (earlier rest : Dump) (tp tc : List Event) (rpc : RPC)
    (conn : ClientConn) (str : ClientStream) (before after : List Message)
    (tag : String) (payload : Bytes)
    (hpre : runLoop w cfg s0 earlier = ⟨s, tp ++ [Event.decode], none⟩)
    (hconn : getConnection w.GetClientConn cfg s rpc.Metadata = (s1, tc, .ok conn))
    (hstr : w.NewStream s1 conn rpc.Metadata rpc.StreamName = (s2, .ok str))
    (hmsgs : rpc.Messages = before ++ ⟨.other tag, payload⟩ :: after)
    (hbefore : ProcessedAndEqual w str s2 before) :
    (run w cfg s0 (.ok (earlier ++ .record rpc :: rest))).err =
      some ("invalid message type: " ++ tag) ∧
    (run w cfg s0 (.ok (earlier ++ .record rpc :: rest))).trace =
      tp ++ [Event.decode] ++ tc ++ streamHead conn rpc ++ recordedOps str before := by
  obtain ⟨ht, ho⟩ := replayMessages_of_processed w str s2 before hbefore
  have hb : replayMessages w str s2 before =
      ((replayMessages w str s2 before).1, recordedOps str before, .completed) := by
    rw [← ht, ← ho]
  have hm : replayMessages w str s2 rpc.Messages =
      ((replayMessages w str s2 before).1, recordedOps str before,
        .failed ("invalid message type: " ++ tag)) := by
    rw [hmsgs, replayMessages_append w str before _ s2 _ _ hb,
      replayMessages_other w str _ ⟨.other tag, payload⟩ after tag rfl]
    simp
  have h := replayRPC_failed w cfg s s1 s2 _ rpc tc _ conn str _ hconn hstr hm
  rw [run_failed_at w cfg s0 s _ earlier rest tp _ rpc _ hpre h]
  simp

/-- The record `badTagRPC` against a server answering `resp1` as recorded: the
tag `bogus` is reached and `run` returns the error. -/
theorem run_invalid_tag_fatal_witness :
    (run scriptedWorld plainConfig [resp1] (.ok ([] ++ .record badTagRPC :: []))).err =
      some ("invalid message type: " ++ "bogus") :=
  (run_invalid_tag_fatal scriptedWorld plainConfig [resp1] [resp1] [resp1] [resp1] [] []
    [] _ badTagRPC 7 1 [⟨.ServerMessage, resp1⟩] [] "bogus" [] rfl rfl rfl rfl
    ⟨rfl, trivial⟩).1

/-! ## Stream open failure -/

/-- C7, as stated, fails: when the stream of the first of two records cannot
be opened, `run` returns the error and the second record is never decoded. -/
theorem stream_open_failure_stops_run :
    run noStreamWorld plainConfig () (.ok [.record exampleRPC, .record exampleRPC]) =
      ⟨(), [Event.decode,
          Event.getClientConn "localhost:50051" [.forceNoopCodec, .withBlock, .withInsecure],
          Event.newStream 7 [(":authority", ["localhost:50051"])] "pkg.Svc/Method"],
        some "failed to make new stream: unavailable"⟩ :=
  rfl

/-- C7, amended: a failure to open the stream for a recorded RPC aborts the
run: `run` returns the error `failed to make new stream`, the trace ends at the
failed `NewStream` call, and the records that follow are neither decoded nor
replayed. -/
theorem run_stream_open_failure_fatal {σ : Type} (w : World σ) (cfg : Config)
    (s0 s s1 s2 : σ) (earlier rest : Dump) (tp tc : List Event) (rpc : RPC)
    (conn : ClientConn) (err : String)
    (hpre : runLoop w cfg s0 earlier = ⟨s, tp ++ [Event.decode], none⟩)
    (hconn : getConnection w.GetClientConn cfg s rpc.Metadata = (s1, tc, .ok conn))
    (hstr : w.NewStream s1 conn rpc.Metadata rpc.StreamName = (s2, .error err)) :
    run w cfg s0 (.ok (earlier ++ .record rpc :: rest)) =
      ⟨s2, tp ++ [Event.decode] ++ tc ++ [Event.newStream conn rpc.Metadata rpc.StreamName],
        some ("failed to make new stream: " ++ err)⟩ := by
  have h := replayRPC_stream_err w cfg s s1 s2 rpc tc conn err hconn hstr
  rw [run_failed_at w cfg s0 s s2 earlier rest tp _ rpc _ hpre h]
  simp

/-- In a world where no stream opens, the run stops at the first record. -/
theorem run_stream_open_failure_fatal_witness :
    run noStreamWorld plainConfig () (.ok ([] ++ .record exampleRPC :: [.record exampleRPC])) =
      ⟨(), [] ++ [Event.decode] ++
          [Event.getClientConn "localhost:50051" [.forceNoopCodec, .withBlock, .withInsecure]]
          ++ [Event.newStream 7 exampleRPC.Metadata exampleRPC.StreamName],
        some ("failed to make new stream: " ++ "unavailable")⟩ :=
  run_stream_open_failure_fatal noStreamWorld plainConfig () () () () []
    [.record exampleRPC] [] _ exampleRPC 7 "unavailable" rfl rfl rfl

/-! ## What is reported for a record -/

set_option maxRecDepth 100000 in
/-- C10, as stated, fails: for a record whose metadata names no authority,
with no override, nothing is written to standard output, and what `main`
writes to standard error is the connect error, which names the (empty)
override and not the stream `pkg.Svc/Method`. -/
theorem unresolved_rpc_not_named :
    noAuthorityRPC.StreamName = "pkg.Svc/Method" ∧
    main scriptedWorld plainConfig [] (.ok [.record noAuthorityRPC]) =
      ([Event.decode,
        Event.stderr ("failed to connect to destination (): " ++
          "no destination override specified and could not auto-detect from dump\n"),
        Event.usage], 1) ∧
    ¬ ("pkg.Svc/Method".data <:+: ("failed to connect to destination (): " ++
        "no destination override specified and could not auto-detect from dump\n").data) :=
  ⟨rfl, rfl, by decide⟩

/-- C10, amended: for every recorded RPC at any place of any dump whose
connection and stream were opened, standard output gets the stream identifier
followed by exactly one of `OK` and `Err mismatch`, after which the run goes
on, or, on a send, receive or invalid-tag failure, the stream identifier
alone, the error being returned by `run` and written to standard error by
`main`, which exits with status 1; when the RPC fails at destination
resolution, at connect or at stream open, nothing is written to standard
output for it, and `run` returns the error `failed to connect to destination`
with the override and the cause, or `failed to make new stream` with the
cause, which `main` writes to standard error. -/
theorem rpc_reported_once {σ : Type} (w : World σ) (cfg : Config) (s0 s : σ)
    (earlier rest : Dump) (tp : List Event) (rpc : RPC)
    (hpre : runLoop w cfg s0 earlier = ⟨s, tp ++ [Event.decode], none⟩) :
    (∀ s1 s2 tc conn str,
      getConnection w.GetClientConn cfg s rpc.Metadata = (s1, tc, .ok conn) →
      w.NewStream s1 conn rpc.Metadata rpc.StreamName = (s2, .ok str) →
      (stdoutOf (tc ++ streamHead conn rpc ++ (replayMessages w str s2 rpc.Messages).2.1 ++
            [Event.stdout "OK\n"]) = [rpc.StreamName ++ "...", "OK\n"] ∧
        run w cfg s0 (.ok (earlier ++ .record rpc :: rest)) =
          ⟨(runLoop w cfg (replayMessages w str s2 rpc.Messages).1 rest).state,
            tp ++ [Event.decode] ++ tc ++ streamHead conn rpc ++
              (replayMessages w str s2 rpc.Messages).2.1 ++ [Event.stdout "OK\n"] ++
              (runLoop w cfg (replayMessages w str s2 rpc.Messages).1 rest).trace,
            (runLoop w cfg (replayMessages w str s2 rpc.Messages).1 rest).err⟩) ∨
      (stdoutOf (tc ++ streamHead conn rpc ++ (replayMessages w str s2 rpc.Messages).2.1) =
            [rpc.StreamName ++ "...", "Err mismatch\n"] ∧
        run w cfg s0 (.ok (earlier ++ .record rpc :: rest)) =
          ⟨(runLoop w cfg (replayMessages w str s2 rpc.Messages).1 rest).state,
            tp ++ [Event.decode] ++ tc ++ streamHead conn rpc ++
              (replayMessages w str s2 rpc.Messages).2.1 ++
              (runLoop w cfg (replayMessages w str s2 rpc.Messages).1 rest).trace,
            (runLoop w cfg (replayMessages w str s2 rpc.Messages).1 rest).err⟩) ∨
      (∃ err,
        stdoutOf (tc ++ streamHead conn rpc ++ (replayMessages w str s2 rpc.Messages).2.1) =
            [rpc.StreamName ++ "..."] ∧
        run w cfg s0 (.ok (earlier ++ .record rpc :: rest)) =
          ⟨(replayMessages w str s2 rpc.Messages).1,
            tp ++ [Event.decode] ++ tc ++ streamHead conn rpc ++
              (replayMessages w str s2 rpc.Messages).2.1,
            some err⟩ ∧
        main w cfg s0 (.ok (earlier ++ .record rpc :: rest)) =
          (tp ++ [Event.decode] ++ tc ++ streamHead conn rpc ++
              (replayMessages w str s2 rpc.Messages).2.1 ++
              [Event.stderr (err ++ "\n"), Event.usage], 1))) ∧
    (∀ s1 tc err,
      getConnection w.GetClientConn cfg s rpc.Metadata = (s1, tc, .error err) →
      stdoutOf tc = [] ∧
      run w cfg s0 (.ok (earlier ++ .record rpc :: rest)) =
        ⟨s1, tp ++ [Event.decode] ++ tc,
          some ("failed to connect to destination (" ++ cfg.destinationOverride ++ "): "
            ++ err)⟩ ∧
      main w cfg s0 (.ok (earlier ++ .record rpc :: rest)) =
        (tp ++ [Event.decode] ++ tc ++
          [Event.stderr ("failed to connect to destination (" ++ cfg.destinationOverride
            ++ "): " ++ err ++ "\n"), Event.usage], 1)) ∧
    (∀ s1 s2 tc conn err,
      getConnection w.GetClientConn cfg s rpc.Metadata = (s1, tc, .ok conn) →
      w.NewStream s1 conn rpc.Metadata rpc.StreamName = (s2, .error err) →
      stdoutOf (tc ++ [Event.newStream conn rpc.Metadata rpc.StreamName]) = [] ∧
      run w cfg s0 (.ok (earlier ++ .record rpc :: rest)) =
        ⟨s2, tp ++ [Event.decode] ++ tc ++ [Event.newStream conn rpc.Metadata rpc.StreamName],
          some ("failed to make new stream: " ++ err)⟩ ∧
      main w cfg s0 (.ok (earlier ++ .record rpc :: rest)) =
        (tp ++ [Event.decode] ++ tc ++ [Event.newStream conn rpc.Metadata rpc.StreamName] ++
          [Event.stderr ("failed to make new stream: " ++ err ++ "\n"), Event.usage], 1)) := by
  have hg := getConnection_stdout w.GetClientConn cfg s rpc.Metadata
  refine ⟨?_, ?_, ?_⟩
  · intro s1 s2 tc conn str hconn hstr
    rw [hconn] at hg
    simp only at hg
    have hs := replayMessages_stdout w str s2 rpc.Messages
    rcases hm : replayMessages w str s2 rpc.Messages with ⟨s3, tm, o⟩
    rw [hm] at hs
    simp only at hs
    cases o with
    | completed =>
      left
      simp only [reduceCtorEq, if_false] at hs
      have hr := replayRPC_completed w cfg s s1 s2 s3 rpc tc tm conn str hconn hstr hm
      rw [run_continue_at w cfg s0 s _ earlier rest tp _ rpc _ hpre hr (Or.inl rfl)]
      refine ⟨?_, by simp⟩
      simp [stdoutOf_append, hg, hs, streamHead, stdoutOf]
    | mismatched =>
      right; left
      simp only [if_true] at hs
      have hr := replayRPC_mismatched w cfg s s1 s2 s3 rpc tc tm conn str hconn hstr hm
      rw [run_continue_at w cfg s0 s _ earlier rest tp _ rpc _ hpre hr (Or.inr rfl)]
      refine ⟨?_, by simp⟩
      simp [stdoutOf_append, hg, hs, streamHead, stdoutOf]
    | failed err =>
      right; right
      simp only [reduceCtorEq, if_false] at hs
      have hr := replayRPC_failed w cfg s s1 s2 s3 rpc tc tm conn str err hconn hstr hm
      have hrun := run_failed_at w cfg s0 s s3 earlier rest tp _ rpc _ hpre hr
      refine ⟨err, ?_, ?_, ?_⟩
      · simp [stdoutOf_append, hg, hs, streamHead, stdoutOf]
      · rw [hrun]
        simp
      · rw [main_of_run w cfg s0 s3 _ _ err hrun]
        simp
  · intro s1 tc err hconn
    rw [hconn] at hg
    have h := replayRPC_conn_err w cfg s s1 rpc tc err hconn
    have hrun := run_failed_at w cfg s0 s s1 earlier rest tp _ rpc _ hpre h
    exact ⟨hg, hrun, main_of_run w cfg s0 s1 _ _ _ hrun⟩
  · intro s1 s2 tc conn err hconn hstr
    rw [hconn] at hg
    simp only at hg
    have h := replayRPC_stream_err w cfg s s1 s2 rpc tc conn err hconn hstr
    have hrun := run_failed_at w cfg s0 s s2 earlier rest tp _ rpc _ hpre h
    refine ⟨?_, ?_, ?_⟩
    · simp [stdoutOf_append, hg, stdoutOf]
    · rw [hrun]
      simp
    · rw [main_of_run w cfg s0 s2 _ _ _ hrun]
      simp [String.append_assoc]

/-- After a record that ended in a mismatch, the end-to-end record is answered
`resp1`: its name is printed, then `OK`, and the run goes on to the end of the
dump. -/
theorem rpc_reported_once_witness :
    (stdoutOf ([Event.getClientConn "localhost:50051"
            [.forceNoopCodec, .withBlock, .withInsecure]] ++ streamHead 7 exampleRPC ++
          (replayMessages scriptedWorld 1 [resp1] exampleRPC.Messages).2.1 ++
          [Event.stdout "OK\n"]) = [exampleRPC.StreamName ++ "...", "OK\n"] ∧
      run scriptedWorld plainConfig [resp2, resp1]
          (.ok ([.record exampleRPC] ++ .record exampleRPC :: [])) =
        ⟨(runLoop scriptedWorld plainConfig
            (replayMessages scriptedWorld 1 [resp1] exampleRPC.Messages).1 []).state,
          [Event.decode,
            Event.getClientConn "localhost:50051" [.forceNoopCodec, .withBlock, .withInsecure],
            Event.newStream 7 exampleRPC.Metadata "pkg.Svc/Method",
            Event.stdout "pkg.Svc/Method...",
            Event.sendMsg 1 req1, Event.recvMsg 1, Event.stdout "Err mismatch\n"] ++
            [Event.decode] ++
            [Event.getClientConn "localhost:50051"
              [.forceNoopCodec, .withBlock, .withInsecure]] ++ streamHead 7 exampleRPC ++
            (replayMessages scriptedWorld 1 [resp1] exampleRPC.Messages).2.1 ++
            [Event.stdout "OK\n"] ++
            (runLoop scriptedWorld plainConfig
              (replayMessages scriptedWorld 1 [resp1] exampleRPC.Messages).1 []).trace,
          (runLoop scriptedWorld plainConfig
            (replayMessages scriptedWorld 1 [resp1] exampleRPC.Messages).1 []).err⟩) :=
  ((rpc_reported_once scriptedWorld plainConfig [resp2, resp1] [resp1]
    [.record exampleRPC] [] _ exampleRPC rfl).1 [resp1] [resp1] _ 7 1 rfl rfl).resolve_right
    (by
      rintro (⟨h, -⟩ | ⟨err, -, h, -⟩)
      · revert h; decide
      · exact Option.noConfusion (congrArg RunResult.err h))

/-! ## Connection reuse -/

/-- C8: with the pool as the specification describes it, once `getConnection`
has succeeded for a metadata, then after any number of further operations of
the run, `getConnection` for any metadata resolving to the same destination
returns the same connection, leaves the pool and the network as they are and
makes no dial, whatever the TLS indicators of the two metadata: the options
of the second call are passed to the pool and ignored. -/
theorem getConnection_reuses_connection {τ : Type}
    (dial : τ → String → List DialOption → τ × Except String ClientConn)
    (base : World τ) (cfg : Config) (p0 p1 p2 : PoolState τ) (md1 md2 : MD)
    (t1 : List Event) (c : ClientConn) (d : String)
    (hdest1 : resolveDestination cfg md1 = some d)
    (hdest2 : resolveDestination cfg md2 = some d)
    (hfirst : getConnection (poolWorld dial base).GetClientConn cfg p0 md1 = (p1, t1, .ok c))
    (hlater : Later (poolWorld dial base) p1 p2) :
    getConnection (poolWorld dial base).GetClientConn cfg p2 md2 =
      (p2, [Event.getClientConn d (dialOptions cfg md2)], .ok c) ∧
    (getConnection (poolWorld dial base).GetClientConn cfg p2 md2).1.dials = p2.dials := by
  have h1 := getConnection_resolved (poolWorld dial base).GetClientConn cfg p0 md1 d hdest1
  rw [hfirst] at h1
  simp only [Prod.mk.injEq] at h1
  obtain ⟨hp, -, hc⟩ := h1
  have hreg : List.lookup d p1.conns = some c :=
    pool_registers dial p0 p1 d (dialOptions cfg md1) c (Prod.ext hp.symm hc.symm)
  have hkeep := poolWorld_later_keeps dial base p1 p2 d c hlater hreg
  have hhit := pool_hit dial p2 d (dialOptions cfg md2) c hkeep
  have h2 := getConnection_resolved (poolWorld dial base).GetClientConn cfg p2 md2 d hdest2
  have hG : (poolWorld dial base).GetClientConn p2 d (dialOptions cfg md2) = (p2, .ok c) := hhit
  rw [hG] at h2
  rw [h2]
  exact ⟨rfl, rfl⟩

/-- A first call for `localhost:50051` with plaintext metadata, then the replay
of a record for `other:443`, then a call for `localhost:50051` with metadata
carrying the scheme `https`: the last call gets connection 0 again, and the
log of dials holds the plaintext dial of `localhost:50051` and the TLS dial of
`other:443` only. -/
theorem getConnection_reuses_connection_witness :
    getConnection (poolWorld countingDial silentStreams).GetClientConn httpsConfig
        ⟨[("other:443", 1), ("localhost:50051", 0)], 2,
          [("localhost:50051", [.forceNoopCodec, .withBlock, .withInsecure]),
            ("other:443", [.forceNoopCodec, .withBlock, .withTransportCredentialsTLS])]⟩
        [(":authority", ["localhost:50051"]), (":scheme", ["https"])] =
      (⟨[("other:443", 1), ("localhost:50051", 0)], 2,
          [("localhost:50051", [.forceNoopCodec, .withBlock, .withInsecure]),
            ("other:443", [.forceNoopCodec, .withBlock, .withTransportCredentialsTLS])]⟩,
        [Event.getClientConn "localhost:50051"
          (dialOptions httpsConfig
            [(":authority", ["localhost:50051"]), (":scheme", ["https"])])],
        .ok 0) :=
  (getConnection_reuses_connection countingDial silentStreams httpsConfig ⟨[], 0, []⟩
    ⟨[("localhost:50051", 0)], 1,
      [("localhost:50051", [.forceNoopCodec, .withBlock, .withInsecure])]⟩
    ⟨[("other:443", 1), ("localhost:50051", 0)], 2,
      [("localhost:50051", [.forceNoopCodec, .withBlock, .withInsecure]),
        ("other:443", [.forceNoopCodec, .withBlock, .withTransportCredentialsTLS])]⟩
    [(":authority", ["localhost:50051"])]
    [(":authority", ["localhost:50051"]), (":scheme", ["https"])]
    _ 0 "localhost:50051" (by decide) (by decide) rfl
    (runLoop_later (poolWorld countingDial silentStreams) httpsConfig
      ⟨[("localhost:50051", 0)], 1,
        [("localhost:50051", [.forceNoopCodec, .withBlock, .withInsecure])]⟩
      [.record otherRPC])).1

end GrpcReplay
